import Mathlib

/-!
# Accident-Detection dashboard: overlay renderer, timeline strip, upload flow

A shallow embedding of `frontend/components/DetectionPlayer.jsx`,
`frontend/components/UploadCard.jsx`, `frontend/pages/index.jsx` and the
rendering condition of `frontend/components/AlertModal.jsx`.

Conventions of the embedding.

* JavaScript numbers are IEEE 754 binary64 values (`JSNum`, `toDouble`) where
  a rounded result decides what is drawn: the difference `timestamp -
  currentTime` that is compared with 0.25, and the product `confidence * 100`
  that `toFixed` prints.  Coordinates, widths and offsets are exact rationals
  (`ℚ`).  Element and bitmap dimensions (`clientWidth`, `videoWidth`,
  `canvas.width`, ...) are natural numbers, as they are in the DOM.
* The closures of the effect (`resizeCanvas`, `drawBoxes`, `handleTimeUpdate`)
  become functions on the record `Env` of the objects they capture.
* The 2D drawing context is the explicit state `Canvas`: its drawing state
  (`Ctx2D`), the log of drawing calls issued on it, and the content of the
  bitmap as a display list.
* `measureText` is supplied by the browser; it is a parameter
  `measureText font text` giving the advance width of `text` in `font`.
-/

namespace AccidentDetection

/-! ## Values -/

/-- A field of a backend record whose run-time type the code inspects. -/
inductive JSVal where
  | undefined
  | null
  | bool (b : Bool)
  | num (q : ℚ)
  | str (s : String)
  deriving DecidableEq

/-- The `typeof` operator. -/
def JSVal.typeof : JSVal → String
  | .undefined => "undefined"
  | .null => "object"
  | .bool _ => "boolean"
  | .num _ => "number"
  | .str _ => "string"

/-- Truthiness, as used by `Boolean(v)`, `!v` and `v || w`. -/
def JSVal.truthy : JSVal → Bool
  | .undefined => false
  | .null => false
  | .bool b => b
  | .num q => decide (q ≠ 0)
  | .str s => decide (s ≠ "")

/-- On numbers `a || b` is `a` unless `a` is `0`. -/
def orNum (a b : ℚ) : ℚ := if a ≠ 0 then a else b

/-- On element dimensions `a || b` is `a` unless `a` is `0`. -/
def orDim (a b : ℕ) : ℕ := if a ≠ 0 then a else b

/-- On strings `a || b` is `a` unless `a` is empty. -/
def orStr (a b : String) : String := if a ≠ "" then a else b

/-! ## Numbers

A JavaScript number is an IEEE 754 binary64 value.  The finite ones are
rationals; a rational that is not a binary64 value stands for the value
nearest to it, as a numeric literal and a parsed JSON number do.  The two
zeros are not told apart: no operation of the code distinguishes them. -/

/-- The integer nearest to a non-negative rational, the even one on a tie. -/
def roundHalfEven (r : ℚ) : ℕ :=
  let n := ⌊r⌋₊
  if r - n < 1 / 2 then n
  else if 1 / 2 < r - n then n + 1
  else if n % 2 = 0 then n
  else n + 1

/-- The exponent of `x` in binary64: the `e` with `2^e ≤ |x| < 2^(e+1)`, and
`-1022` for the subnormal numbers; zero is rounded to zero whatever its
exponent. -/
def binade (x : ℚ) : ℤ := max (Int.log 2 |x|) (-1022)

/-- The spacing of the binary64 values around `x`: 53 significant bits. -/
def ulp (x : ℚ) : ℚ := 2 ^ (binade x - 52)

/-- Rounding to binary64 with an unbounded exponent: the multiple of `ulp x`
nearest to `x`, the one with an even significand on a tie. -/
def roundDouble (x : ℚ) : ℚ :=
  let r : ℚ := roundHalfEven (|x| / ulp x) * ulp x
  if x < 0 then -r else r

/-- A JavaScript number. -/
inductive JSNum where
  | nan
  | infinity (negative : Bool)
  | finite (value : ℚ)
  deriving DecidableEq

/-- The binary64 value of an exact result: rounded to nearest, and infinite when
the rounded magnitude reaches `2^1024`. -/
def toDouble (x : ℚ) : JSNum :=
  if (2 : ℚ) ^ 1024 ≤ |roundDouble x| then JSNum.infinity (decide (x < 0))
  else JSNum.finite (roundDouble x)

/-- The operator `-` on numbers. -/
def JSNum.sub : JSNum → JSNum → JSNum
  | JSNum.nan, _ => JSNum.nan
  | _, JSNum.nan => JSNum.nan
  | JSNum.infinity a, JSNum.infinity b => if a = b then JSNum.nan else JSNum.infinity a
  | JSNum.infinity a, JSNum.finite _ => JSNum.infinity a
  | JSNum.finite _, JSNum.infinity b => JSNum.infinity (!b)
  | JSNum.finite x, JSNum.finite y => toDouble (x - y)

/-- The operator `*` on numbers. -/
def JSNum.mul : JSNum → JSNum → JSNum
  | JSNum.nan, _ => JSNum.nan
  | _, JSNum.nan => JSNum.nan
  | JSNum.infinity a, JSNum.infinity b => JSNum.infinity (a != b)
  | JSNum.infinity a, JSNum.finite y =>
    if y = 0 then JSNum.nan else JSNum.infinity (a != decide (y < 0))
  | JSNum.finite x, JSNum.infinity b =>
    if x = 0 then JSNum.nan else JSNum.infinity (decide (x < 0) != b)
  | JSNum.finite x, JSNum.finite y => toDouble (x * y)

/-- The function `Math.abs`. -/
def JSNum.abs : JSNum → JSNum
  | JSNum.nan => JSNum.nan
  | JSNum.infinity _ => JSNum.infinity false
  | JSNum.finite x => JSNum.finite |x|

/-- The operator `<` on numbers: false when an operand is `NaN`. -/
def JSNum.lt : JSNum → JSNum → Bool
  | JSNum.nan, _ => false
  | _, JSNum.nan => false
  | JSNum.infinity a, JSNum.infinity b => a && !b
  | JSNum.infinity a, JSNum.finite _ => a
  | JSNum.finite _, JSNum.infinity b => !b
  | JSNum.finite x, JSNum.finite y => decide (x < y)

/-- The decimal digits of `n`, padded on the left with zeros to at least `width`. -/
def padDigits (n width : ℕ) : String :=
  let s := toString n
  String.mk (List.replicate (width - s.length) '0') ++ s

/-- Whether the decimal `s * 10^p` is read back as the binary64 integer `m`. -/
def readsBack (m s p : ℕ) : Bool :=
  decide (toDouble ((s : ℚ) * 10 ^ p) = JSNum.finite m)

/-- The shortest decimal that is read back as the binary64 integer `m` (at least
`10^21`), searched from `k` significant digits on with `fuel` lengths to try:
its digits `s` and the number `n` of digits of its integer part.  Of two
decimals of the same length the nearer to `m` is taken, the even one on a tie. -/
def shortestDecimal (m : ℕ) : ℕ → ℕ → ℕ × ℕ
  | 0, _ => (m, (toString m).length)
  | fuel + 1, k =>
    let n := (toString m).length
    let p := n - k
    let lo := m / 10 ^ p
    let hi := lo + 1
    let up : ℕ × ℕ := if hi = 10 ^ k then (10 ^ (k - 1), n + 1) else (hi, n)
    if readsBack m lo p then
      if readsBack m hi p then
        if m - lo * 10 ^ p < hi * 10 ^ p - m then (lo, n)
        else if hi * 10 ^ p - m < m - lo * 10 ^ p then up
        else if lo % 2 = 0 then (lo, n)
        else up
      else (lo, n)
    else if readsBack m hi p then up
    else shortestDecimal m fuel (k + 1)

/-- The string `Number::toString` gives a binary64 integer of at least `10^21`:
the digits of the shortest decimal, a point after the first when there are
several, and the exponent. -/
def exponentNotation (m : ℕ) : String :=
  let sn := shortestDecimal m 17 1
  let digits := toString sn.1
  let exponent := "e+" ++ toString (sn.2 - 1)
  if digits.length = 1 then digits ++ exponent
  else String.mk (digits.data.take 1) ++ "." ++ String.mk (digits.data.drop 1) ++ exponent

/-- The method `Number.prototype.toFixed(f)`: `NaN` and the infinities by name;
from `10^21` on the sign and the exponent notation; below it the sign, then the
integer `n` nearest to `|x| * 10^f` (the larger one on a tie) written with a
point before its last `f` digits. -/
def toFixed (x : JSNum) (f : ℕ) : String :=
  match x with
  | JSNum.nan => "NaN"
  | JSNum.infinity negative => if negative then "-Infinity" else "Infinity"
  | JSNum.finite x =>
    let sign := if x < 0 then "-" else ""
    if (10 : ℚ) ^ 21 ≤ |x| then sign ++ exponentNotation ⌊|x|⌋₊
    else
      let n : ℕ := ⌊|x| * (10 : ℚ) ^ f + 1 / 2⌋₊
      if f = 0 then sign ++ toString n
      else sign ++ toString (n / 10 ^ f) ++ "." ++ padDigits (n % 10 ^ f) f

/-! ## Data model -/

/-- One detection box of the backend result; `none` is a `confidence` that is
missing. -/
structure Box where
  x1 : ℚ
  y1 : ℚ
  x2 : ℚ
  y2 : ℚ
  confidence : Option ℚ
  timestamp : JSVal
  deriving DecidableEq

/-- The callbacks one run of the effect creates. -/
inductive HandlerFn where
  | resizeCanvas
  | handleTimeUpdate
  deriving DecidableEq

/-- A function object: the run of the effect that created the closure, and which
closure of that run it is. -/
structure Handler where
  run : ℕ
  fn : HandlerFn
  deriving DecidableEq

/-- A registered event listener: the event type and the callback. -/
structure Listener where
  type : String
  callback : Handler
  deriving DecidableEq

/-- The `<video>` element as the component reads it. -/
structure Video where
  clientWidth : ℕ
  clientHeight : ℕ
  videoWidth : ℕ
  videoHeight : ℕ
  currentTime : ℚ
  listeners : List Listener
  deriving DecidableEq

/-- The drawing state of a 2D context, with the defaults of a fresh context. -/
structure Ctx2D where
  strokeStyle : String := "#000000"
  lineWidth : ℚ := 1
  shadowBlur : ℚ := 0
  shadowColor : String := "rgba(0, 0, 0, 0)"
  fillStyle : String := "#000000"
  font : String := "10px sans-serif"
  deriving DecidableEq

/-- A drawing call on the context, with its arguments. -/
inductive DrawCall where
  | clearRect (x y w h : ℚ)
  | strokeRect (x y w h : ℚ)
  | fillRect (x y w h : ℚ)
  | fillText (text : String) (x y : ℚ)
  deriving DecidableEq

/-- What a drawing call left on the bitmap: the call and the drawing state it
was rendered with. -/
structure Painted where
  call : DrawCall
  state : Ctx2D
  deriving DecidableEq

/-- The part of the drawing state a call is rendered with, the properties the
call does not read being left at their defaults: a stroke reads the stroke
style, the line width and the shadow; a fill reads the fill style and the
shadow; a text also reads the font; a clear reads none of them. -/
def DrawCall.rendering : DrawCall → Ctx2D → Ctx2D
  | DrawCall.clearRect _ _ _ _, _ => {}
  | DrawCall.strokeRect _ _ _ _, s =>
    { strokeStyle := s.strokeStyle, lineWidth := s.lineWidth, shadowBlur := s.shadowBlur,
      shadowColor := s.shadowColor }
  | DrawCall.fillRect _ _ _ _, s =>
    { fillStyle := s.fillStyle, shadowBlur := s.shadowBlur, shadowColor := s.shadowColor }
  | DrawCall.fillText _ _ _, s =>
    { fillStyle := s.fillStyle, font := s.font, shadowBlur := s.shadowBlur,
      shadowColor := s.shadowColor }

/-- The `<canvas>` element with its 2D context.  `context` tells whether
`getContext("2d")` yields a context; `calls` is every drawing call issued so
far, oldest first; `surface` is the content of the bitmap, oldest first, the
empty list being the fully transparent bitmap. -/
structure Canvas where
  width : ℕ
  height : ℕ
  context : Bool
  state : Ctx2D
  calls : List DrawCall
  surface : List Painted
  deriving DecidableEq

/-- Assigning `canvas.width`: the bitmap is resized and cleared and the context
is reset to its default state, also when the value does not change. -/
def Canvas.setWidth (cv : Canvas) (w : ℕ) : Canvas :=
  { cv with width := w, state := {}, surface := [] }

/-- Assigning `canvas.height`: as for the width. -/
def Canvas.setHeight (cv : Canvas) (h : ℕ) : Canvas :=
  { cv with height := h, state := {}, surface := [] }

/-- The call `ctx.clearRect(x, y, w, h)`: a rectangle covering the whole bitmap
leaves it fully transparent. -/
def Canvas.clearRect (cv : Canvas) (x y w h : ℚ) : Canvas :=
  { cv with
    calls := cv.calls ++ [DrawCall.clearRect x y w h]
    surface :=
      if x ≤ 0 ∧ y ≤ 0 ∧ (cv.width : ℚ) ≤ x + w ∧ (cv.height : ℚ) ≤ y + h then []
      else cv.surface ++ [⟨DrawCall.clearRect x y w h, {}⟩] }

/-- A painting call (`strokeRect`, `fillRect`, `fillText`): rendered with the
drawing state current at the call, on top of what the bitmap holds. -/
def Canvas.paint (cv : Canvas) (c : DrawCall) : Canvas :=
  { cv with calls := cv.calls ++ [c], surface := cv.surface ++ [⟨c, c.rendering cv.state⟩] }

/-- What the closures of one run of the effect capture. -/
structure Env where
  detections : List Box
  video : Video
  canvas : Canvas
  deriving DecidableEq

/-! ## `DetectionPlayer`: the overlay renderer -/

/-- The predicate of `detections.filter` in `drawBoxes` (lines 29-32). -/
def isVisible (currentTime : ℚ) (box : Box) : Bool :=
  match box.timestamp with
  | .num timestamp =>
    (((toDouble timestamp).sub (toDouble currentTime)).abs).lt (toDouble 0.25)
  | _ => true

/-- The list `visibleBoxes` of `drawBoxes`. -/
def visibleBoxes (detections : List Box) (currentTime : ℚ) : List Box :=
  detections.filter (isVisible currentTime)

/-- The number a `confidence` is in a product: `NaN` when it is missing. -/
def confidenceNumber : Option ℚ → JSNum
  | some confidence => toDouble confidence
  | none => JSNum.nan

/-- The label of a box (line 45). -/
def boxLabel (box : Box) : String :=
  "Accident " ++ toFixed ((confidenceNumber box.confidence).mul (toDouble 100)) 1 ++ "%"

/-- The constant `textHeight` (line 47). -/
def textHeight : ℚ := 18

/-- The body of `visibleBoxes.forEach` (lines 34-55). -/
def drawBox (measureText : String → String → ℚ) (canvas : Canvas) (box : Box) : Canvas :=
  let canvas := { canvas with state := { canvas.state with strokeStyle := "rgba(239,68,68,0.95)" } }
  let canvas := { canvas with state := { canvas.state with lineWidth := 3 } }
  let canvas := { canvas with state := { canvas.state with shadowBlur := 8 } }
  let canvas := { canvas with state := { canvas.state with shadowColor := "rgba(248,113,113,0.9)" } }
  let width := box.x2 - box.x1
  let height := box.y2 - box.y1
  let canvas := canvas.paint (DrawCall.strokeRect box.x1 box.y1 width height)
  let label := boxLabel box
  let textWidth := measureText canvas.state.font label + 10
  let canvas := { canvas with state := { canvas.state with fillStyle := "rgba(248,113,113,0.95)" } }
  let canvas := canvas.paint (DrawCall.fillRect box.x1 (max 0 (box.y1 - textHeight)) textWidth textHeight)
  let canvas := { canvas with state := { canvas.state with fillStyle := "white" } }
  let canvas := { canvas with state := { canvas.state with font := "10px system-ui" } }
  canvas.paint (DrawCall.fillText label (box.x1 + 5) (max 10 (box.y1 - 6)))

/-- The closure `drawBoxes` (lines 25-56). -/
def drawBoxes (measureText : String → String → ℚ) (env : Env) (currentTime : ℚ) : Env :=
  if !env.canvas.context then env
  else
    let canvas := env.canvas.clearRect 0 0 env.canvas.width env.canvas.height
    let visible := visibleBoxes env.detections currentTime
    { env with canvas := visible.foldl (drawBox measureText) canvas }

/-- The closure `resizeCanvas` (lines 19-23). -/
def resizeCanvas (measureText : String → String → ℚ) (env : Env) : Env :=
  let canvas := env.canvas.setWidth (orDim (orDim env.video.clientWidth env.video.videoWidth) 640)
  let canvas := canvas.setHeight (orDim (orDim env.video.clientHeight env.video.videoHeight) 360)
  drawBoxes measureText { env with canvas := canvas } (orNum env.video.currentTime 0)

/-- The closure `handleTimeUpdate` (lines 58-60). -/
def handleTimeUpdate (measureText : String → String → ℚ) (env : Env) : Env :=
  drawBoxes measureText env (orNum env.video.currentTime 0)

/-! ## `DetectionPlayer`: the timeline strip -/

/-- The `left` offset, in percent, of one marker (lines 104-105). -/
def markerLeft (duration t : ℚ) : ℚ :=
  let clamped := max 0 (min duration t)
  clamped / duration * 100

/-- The markers of the timeline strip (lines 75, 100-113): `none` when the strip
is not rendered, otherwise the `left` offset of each marker in order. -/
def timelineStrip (timelineMarkers : List ℚ) (videoDuration : ℚ) : Option (List ℚ) :=
  let duration := orNum videoDuration 0
  if duration > 0 ∧ timelineMarkers.length > 0 then
    some (timelineMarkers.map (markerLeft duration))
  else none

/-- The clamp of the specification: `t` limited to the interval from `lo` to `hi`. -/
def specClamp (t lo hi : ℚ) : ℚ :=
  if t < lo then lo else if hi < t then hi else t

/-! ## `DetectionPlayer`: the effect and its listeners -/

/-- The objects the effect reaches: `videoRef.current`, `canvasRef.current`
(absent while no video is shown) and the listeners registered on `window`. -/
structure Dom where
  video : Option Video
  canvas : Option Canvas
  windowListeners : List Listener
  deriving DecidableEq

/-- The method `addEventListener`: appends the listener unless the same type and
callback are registered already. -/
def addEventListener (ls : List Listener) (type : String) (callback : Handler) : List Listener :=
  if (⟨type, callback⟩ : Listener) ∈ ls then ls else ls ++ [⟨type, callback⟩]

/-- The method `removeEventListener`: removes the listener with this type and
callback, if registered. -/
def removeEventListener (ls : List Listener) (type : String) (callback : Handler) : List Listener :=
  ls.erase ⟨type, callback⟩

/-- The listeners registered on the video element, none when there is no element. -/
def Dom.videoListeners (dom : Dom) : List Listener :=
  match dom.video with
  | some v => v.listeners
  | none => []

/-- The identity of the closures a new run of the effect creates: function
objects are new at each run, so it is one that no registered listener has. -/
def freshRun (dom : Dom) : ℕ :=
  ((dom.windowListeners ++ dom.videoListeners).map fun (l : Listener) => l.callback.run).foldr max 0 + 1

/-- The cleanup function returned by run `run` of the effect (lines 68-72). -/
def cleanup (run : ℕ) (dom : Dom) : Dom :=
  let dom := { dom with
    windowListeners := removeEventListener dom.windowListeners "resize" ⟨run, .resizeCanvas⟩ }
  let dom := { dom with
    video := dom.video.map fun (v : Video) =>
      { v with listeners := removeEventListener v.listeners "loadedmetadata" ⟨run, .resizeCanvas⟩ } }
  { dom with
    video := dom.video.map fun (v : Video) =>
      { v with listeners := removeEventListener v.listeners "timeupdate" ⟨run, .handleTimeUpdate⟩ } }

/-- The effect of `useEffect` (lines 12-73): the page after the effect, and the
cleanup function it returns, if any. -/
def effect (measureText : String → String → ℚ) (detections : List Box) (dom : Dom) :
    Dom × Option (Dom → Dom) :=
  match dom.video, dom.canvas with
  | some video, some canvas =>
    let run := freshRun dom
    let env := resizeCanvas measureText ⟨detections, video, canvas⟩
    let dom := { dom with video := some env.video, canvas := some env.canvas }
    let dom := { dom with
      windowListeners := addEventListener dom.windowListeners "resize" ⟨run, .resizeCanvas⟩ }
    let dom := { dom with
      video := dom.video.map fun (v : Video) =>
        { v with listeners := addEventListener v.listeners "loadedmetadata" ⟨run, .resizeCanvas⟩ } }
    let dom := { dom with
      video := dom.video.map fun (v : Video) =>
        { v with listeners := addEventListener v.listeners "timeupdate" ⟨run, .handleTimeUpdate⟩ } }
    (dom, some (cleanup run))
  | _, _ => (dom, none)

/-- The calls issued on the context between two states of the canvas. -/
def issued (before after : Canvas) : List DrawCall :=
  after.calls.drop before.calls.length

/-- The rectangles stroked by a list of drawing calls, in order. -/
def strokedRects : List DrawCall → List (ℚ × ℚ × ℚ × ℚ)
  | [] => []
  | DrawCall.strokeRect x y w h :: cs => (x, y, w, h) :: strokedRects cs
  | _ :: cs => strokedRects cs

/-- The three calls that draw one box when `font` is the current font: the
rectangle, the label chip and the label text. -/
def boxCalls (measureText : String → String → ℚ) (font : String) (box : Box) : List DrawCall :=
  [DrawCall.strokeRect box.x1 box.y1 (box.x2 - box.x1) (box.y2 - box.y1),
   DrawCall.fillRect box.x1 (max 0 (box.y1 - 18)) (measureText font (boxLabel box) + 10) 18,
   DrawCall.fillText (boxLabel box) (box.x1 + 5) (max 10 (box.y1 - 6))]

/-- The calls that draw a list of boxes in order: the first box meets the font
current on entry, every later one the font the previous box left. -/
def boxesCalls (measureText : String → String → ℚ) (font : String) : List Box → List DrawCall
  | [] => []
  | box :: boxes => boxCalls measureText font box ++ boxesCalls measureText "10px system-ui" boxes

/-! ## `Home`: the page state -/

/-- A file chosen in the file input. -/
structure File where
  name : String
  type : String
  deriving DecidableEq

/-- The JSON object of the backend reply, as `Home` reads it; `none` is a field
that is absent or `null`. -/
structure Result where
  accident : JSVal := JSVal.undefined
  confidence : Option ℚ := none
  boxes : Option (List Box) := none
  accident_time : Option ℚ := none
  accident_type : Option String := none
  objects_involved : Option (List String) := none
  severity : Option String := none
  video_duration : Option ℚ := none
  timeline_markers : Option (List ℚ) := none
  deriving DecidableEq

/-- The state of `Home` (lines 12-22); `none` in `accidentTime` is `null`. -/
structure Home where
  videoUrl : Option String
  detections : List Box
  accident : Bool
  confidence : ℚ
  loading : Bool
  accidentTime : Option ℚ
  accidentType : String
  objectsInvolved : List String
  severity : String
  videoDuration : ℚ
  timelineMarkers : List ℚ
  deriving DecidableEq

/-- The expression `v || d` for an optional number. -/
def orNumOpt : Option ℚ → ℚ → ℚ
  | some a, d => orNum a d
  | none, d => d

/-- The expression `v || d` for an optional string. -/
def orStrOpt : Option String → String → String
  | some a, d => orStr a d
  | none, d => d

/-- The expression `v || d` for an optional array: every array is truthy. -/
def orListOpt {α : Type} : Option (List α) → List α → List α
  | some a, _ => a
  | none, d => d

/-- The handler `handleUploadComplete` of `Home` (lines 29-44); `result` is `none`
for a reply that is `null`. -/
def handleUploadComplete (createObjectURL : File → String) (file : Option File)
    (result : Option Result) (s : Home) : Home :=
  let s := match file with
    | some f => { s with videoUrl := some (createObjectURL f) }
    | none => s
  let s := { s with detections := orListOpt (result.bind Result.boxes) [] }
  let s := { s with accident := ((result.map Result.accident).getD JSVal.undefined).truthy }
  let s := { s with confidence := orNumOpt (result.bind Result.confidence) 0 }
  let s := { s with accidentTime := result.bind Result.accident_time }
  let s := { s with accidentType := orStrOpt (result.bind Result.accident_type) "" }
  let s := { s with objectsInvolved := orListOpt (result.bind Result.objects_involved) [] }
  let s := { s with severity := orStrOpt (result.bind Result.severity) "" }
  let s := { s with videoDuration := orNumOpt (result.bind Result.video_duration) 0 }
  let s := { s with timelineMarkers := orListOpt (result.bind Result.timeline_markers) [] }
  { s with loading := false }

/-- The handler `handleUploadStart` of `Home` (lines 46-57). -/
def handleUploadStart (s : Home) : Home :=
  let s := { s with loading := true }
  let s := { s with accident := false }
  let s := { s with confidence := 0 }
  let s := { s with detections := [] }
  let s := { s with accidentTime := none }
  let s := { s with accidentType := "" }
  let s := { s with objectsInvolved := [] }
  let s := { s with severity := "" }
  let s := { s with videoDuration := 0 }
  { s with timelineMarkers := [] }

/-! ## `UploadCard`: the upload -/

/-- The state of `UploadCard` (lines 10-11). -/
structure UploadCard where
  file : Option File
  error : String
  deriving DecidableEq

/-- The props of `UploadCard` that `handleUpload` uses; the callbacks act on the
state `σ` of the parent and may be absent. -/
structure Props (σ : Type) where
  backendUrl : String
  onUploadStart : Option (σ → σ)
  onUploadComplete : Option (Option File → Option Result → σ → σ)

/-- The body of a reply whose status is not OK. -/
inductive ErrorBody where
  | unparsable
  | null (typeError : String)
  | object (error : Option String)
  deriving DecidableEq

/-- How the request of `handleUpload` ends: `fetch` rejects with an error of the
given message; the status is not OK; the status is OK and `response.json()`
rejects with an error of the given message; the status is OK and the body
parses to `data` (`none` for `null`).  For `ErrorBody.null` the body parsed to
`null` and reading `err.error` throws a `TypeError` of the given message. -/
inductive Outcome where
  | rejected (message : String)
  | notOk (body : ErrorBody)
  | okUnparsable (message : String)
  | okJson (data : Option Result)
  deriving DecidableEq

/-- The result `handleUpload` passes on after a failure (lines 58-62). -/
def failureResult : Result :=
  { accident := JSVal.bool false, confidence := some 0, boxes := some [] }

/-- What `handleUpload` leaves: the card, the state of the parent, and the URLs
requested. -/
structure Uploaded (σ : Type) where
  card : UploadCard
  parent : σ
  requests : List String

/-- The call `onUploadStart?.()`. -/
def callUploadStart {σ : Type} (props : Props σ) (parent : σ) : σ :=
  match props.onUploadStart with
  | some f => f parent
  | none => parent

/-- The call `onUploadComplete?.(file, result)`. -/
def callUploadComplete {σ : Type} (props : Props σ) (file : File) (result : Option Result)
    (parent : σ) : σ :=
  match props.onUploadComplete with
  | some f => f (some file) result parent
  | none => parent

/-- The `try` block of `handleUpload` (lines 40-53) up to the parsed reply: the
data, or the message of the error thrown. -/
def tryUpload : Outcome → Except String (Option Result)
  | Outcome.rejected message => Except.error message
  | Outcome.notOk ErrorBody.unparsable => Except.error "Failed to process video."
  | Outcome.notOk (ErrorBody.null typeError) => Except.error typeError
  | Outcome.notOk (ErrorBody.object error) => Except.error (orStrOpt error "Failed to process video.")
  | Outcome.okUnparsable message => Except.error message
  | Outcome.okJson data => Except.ok data

/-- The handler `handleUpload` of `UploadCard` (lines 30-64), the callbacks
returning normally. -/
def handleUpload {σ : Type} (props : Props σ) (outcome : Outcome) (card : UploadCard)
    (parent : σ) : Uploaded σ :=
  match card.file with
  | none => ⟨{ card with error := "Please choose a video file first." }, parent, []⟩
  | some file =>
    let card := { card with error := "" }
    let parent := callUploadStart props parent
    let requests := [props.backendUrl ++ "/upload-video"]
    match tryUpload outcome with
    | Except.ok data => ⟨card, callUploadComplete props file data parent, requests⟩
    | Except.error message =>
      let card := { card with error := orStr message "Unexpected error while uploading." }
      ⟨card, callUploadComplete props file (some failureResult) parent, requests⟩

/-- The props `Home` passes to `UploadCard` (lines 96-101). -/
def homeProps (backendUrl : String) (createObjectURL : File → String) : Props Home :=
  { backendUrl := backendUrl
    onUploadStart := some handleUploadStart
    onUploadComplete := some (handleUploadComplete createObjectURL) }

/-- An outcome other than an OK reply with a body that parses. -/
def Outcome.failed : Outcome → Bool
  | Outcome.okJson _ => false
  | _ => true

/-! ## Scenario data -/

/-- A font metric in which the two fonts of the overlay differ: six units a
character in `10px system-ui`, five in every other font. -/
def fontWidth (font text : String) : ℚ :=
  if font = "10px system-ui" then 6 * text.length else 5 * text.length

/-- The box of the scenario of the specification. -/
def scenarioBox : Box := ⟨10, 10, 50, 50, some 0.87, JSVal.num 3.0⟩

/-- A video element without metadata yet, at playback time `t`. -/
def scenarioVideo (t : ℚ) : Video := ⟨0, 0, 0, 0, t, []⟩

/-- A canvas element as created: 300 by 150, nothing drawn. -/
def freshCanvas (context : Bool) : Canvas := ⟨300, 150, context, {}, [], []⟩

/-- The rectangle `strokeRect` receives for a box. -/
def boxRect (box : Box) : ℚ × ℚ × ℚ × ℚ :=
  (box.x1, box.y1, box.x2 - box.x1, box.y2 - box.y1)

/-- The environment after the two assignments of `resizeCanvas` (lines 20-21),
before its repaint. -/
def resizedEnv (env : Env) : Env :=
  { env with
    canvas :=
      (env.canvas.setWidth (orDim (orDim env.video.clientWidth env.video.videoWidth) 640)).setHeight
        (orDim (orDim env.video.clientHeight env.video.videoHeight) 360) }

/-- What drawing one box leaves on the bitmap when `font` is the current font. -/
def boxPainted (measureText : String → String → ℚ) (font : String) (box : Box) : List Painted :=
  [⟨DrawCall.strokeRect box.x1 box.y1 (box.x2 - box.x1) (box.y2 - box.y1),
      { strokeStyle := "rgba(239,68,68,0.95)", lineWidth := 3, shadowBlur := 8,
        shadowColor := "rgba(248,113,113,0.9)" }⟩,
   ⟨DrawCall.fillRect box.x1 (max 0 (box.y1 - 18)) (measureText font (boxLabel box) + 10) 18,
      { fillStyle := "rgba(248,113,113,0.95)", shadowBlur := 8,
        shadowColor := "rgba(248,113,113,0.9)" }⟩,
   ⟨DrawCall.fillText (boxLabel box) (box.x1 + 5) (max 10 (box.y1 - 6)),
      { fillStyle := "white", font := "10px system-ui", shadowBlur := 8,
        shadowColor := "rgba(248,113,113,0.9)" }⟩]

/-- What drawing a list of boxes leaves on the bitmap, the first box meeting the
font current on entry. -/
def boxesPainted (measureText : String → String → ℚ) (font : String) : List Box → List Painted
  | [] => []
  | box :: boxes =>
    boxPainted measureText font box ++ boxesPainted measureText "10px system-ui" boxes

/-! ## `Home`: what the page shows -/

/-- The constant `displayAccident` of `Home` (line 27). -/
def displayAccident : Bool := true

/-- The header of the detection panel (line 116). -/
def headerText (s : Home) : String :=
  if s.accident then "Accident Detected" else "Monitoring"

/-- The text under "Accident" in the status panel (line 138). -/
def accidentText : String :=
  if displayAccident then "YES" else "NO"

/-- The text after "Status:" in the status panel (line 142). -/
def statusText : String :=
  if displayAccident then "Not Safe" else "Safe"

/-- The object the report is serialised from. -/
structure Report where
  accident : Bool
  confidence : ℚ
  accident_time : Option ℚ
  accident_type : String
  objects_involved : List String
  severity : String
  video_duration : ℚ
  timeline_markers : List ℚ
  deriving DecidableEq

/-- The object `report` the click handler of "Download Report" builds (lines 179-188). -/
def buildReport (s : Home) : Report :=
  { accident := displayAccident
    confidence := s.confidence
    accident_time := s.accidentTime
    accident_type := s.accidentType
    objects_involved := s.objectsInvolved
    severity := s.severity
    video_duration := s.videoDuration
    timeline_markers := s.timelineMarkers }

/-- The report a click can download: the button is rendered only when there are
detections (line 174). -/
def downloadReport (s : Home) : Option Report :=
  if s.detections.length > 0 then some (buildReport s) else none

/-- Whether `AlertModal` renders its dialog (`AlertModal.jsx`, line 13). -/
def alertModalVisible (binding : Bool) : Bool := binding

/-- Whether the alert of `Home` is visible: the prop `show` is `accident` (line 227). -/
def alertVisible (s : Home) : Bool := alertModalVisible s.accident

/-- The value `Boolean(result?.accident)` (line 35). -/
def resultAccident (result : Option Result) : Bool :=
  ((result.map Result.accident).getD JSVal.undefined).truthy

/-! ## `UploadCard`: recording the callbacks -/

/-- A call of one of the two callbacks, with its arguments. -/
inductive Call where
  | uploadStart
  | uploadComplete (file : Option File) (result : Option Result)
  deriving DecidableEq

/-- Props whose callbacks do nothing but append their call to a log. -/
def recordingProps (backendUrl : String) : Props (List Call) :=
  { backendUrl := backendUrl
    onUploadStart := some fun (log : List Call) => log ++ [Call.uploadStart]
    onUploadComplete := some fun (file : Option File) (result : Option Result) (log : List Call) =>
      log ++ [Call.uploadComplete file result] }

/-- The result `handleUpload` passes to `onUploadComplete`: the parsed data of an
OK reply, the failure result otherwise. -/
def passedResult (outcome : Outcome) : Option Result :=
  match tryUpload outcome with
  | Except.ok data => data
  | Except.error _ => some failureResult

/-! ## Lemmas on the drawing primitives -/

/-- The forEach body leaves the bitmap size and the context flag alone. -/
theorem drawBox_width (mt : String → String → ℚ) (cv : Canvas) (b : Box) :
    (drawBox mt cv b).width = cv.width ∧ (drawBox mt cv b).height = cv.height ∧
      (drawBox mt cv b).context = cv.context :=
  ⟨rfl, rfl, rfl⟩

/-- The forEach body issues the three calls of its box. -/
theorem drawBox_calls (mt : String → String → ℚ) (cv : Canvas) (b : Box) :
    (drawBox mt cv b).calls = cv.calls ++ boxCalls mt cv.state.font b := by
  simp [drawBox, Canvas.paint, boxCalls, textHeight]

/-- The forEach body leaves the label font selected. -/
theorem drawBox_font (mt : String → String → ℚ) (cv : Canvas) (b : Box) :
    (drawBox mt cv b).state.font = "10px system-ui" := rfl

/-- Drawing a list of boxes leaves the bitmap size and the context flag alone. -/
theorem foldl_drawBox_dims (mt : String → String → ℚ) (bs : List Box) (cv : Canvas) :
    (bs.foldl (drawBox mt) cv).width = cv.width ∧ (bs.foldl (drawBox mt) cv).height = cv.height ∧
      (bs.foldl (drawBox mt) cv).context = cv.context := by
  induction bs generalizing cv with
  | nil => exact ⟨rfl, rfl, rfl⟩
  | cons b bs ih =>
    obtain ⟨h1, h2, h3⟩ := ih (drawBox mt cv b)
    exact ⟨h1, h2, h3⟩

/-- Drawing a list of boxes issues the calls of each box in order. -/
theorem foldl_drawBox_calls (mt : String → String → ℚ) (bs : List Box) (cv : Canvas) :
    (bs.foldl (drawBox mt) cv).calls = cv.calls ++ boxesCalls mt cv.state.font bs := by
  induction bs generalizing cv with
  | nil => simp [boxesCalls]
  | cons b bs ih =>
    rw [List.foldl_cons, ih, drawBox_calls, drawBox_font, boxesCalls, List.append_assoc]

/-- The calls of one repaint. -/
theorem drawBoxes_calls (mt : String → String → ℚ) (env : Env) (t : ℚ) :
    (drawBoxes mt env t).canvas.calls =
      env.canvas.calls ++
        (if env.canvas.context then
          DrawCall.clearRect 0 0 env.canvas.width env.canvas.height ::
            boxesCalls mt env.canvas.state.font (visibleBoxes env.detections t)
        else []) := by
  unfold drawBoxes
  cases h : env.canvas.context
  · simp
  · simp [foldl_drawBox_calls, Canvas.clearRect]

/-- A repaint leaves the bitmap size and the context flag alone. -/
theorem drawBoxes_dims (mt : String → String → ℚ) (env : Env) (t : ℚ) :
    (drawBoxes mt env t).canvas.width = env.canvas.width ∧
      (drawBoxes mt env t).canvas.height = env.canvas.height ∧
      (drawBoxes mt env t).canvas.context = env.canvas.context := by
  cases h : env.canvas.context
  · simp [drawBoxes, h]
  · have key := foldl_drawBox_dims mt (visibleBoxes env.detections t)
      (env.canvas.clearRect 0 0 env.canvas.width env.canvas.height)
    simpa [drawBoxes, h, Canvas.clearRect] using key

/-! ## Lemmas on binary64 rounding -/

/-- Rounding does not go below an integer that the number has reached. -/
theorem le_roundHalfEven (r : ℚ) (k : ℕ) (h : (k : ℚ) ≤ r) : k ≤ roundHalfEven r := by
  have hr : (0 : ℚ) ≤ r := le_trans (Nat.cast_nonneg k) h
  have hk : k ≤ ⌊r⌋₊ := Nat.le_floor h
  unfold roundHalfEven
  simp only
  split_ifs <;> omega

/-- Rounding does not go above an integer that the number has not passed. -/
theorem roundHalfEven_le (r : ℚ) (k : ℕ) (hr : 0 ≤ r) (h : r ≤ (k : ℚ)) :
    roundHalfEven r ≤ k := by
  have hfl : (⌊r⌋₊ : ℚ) ≤ r := Nat.floor_le hr
  have hk : ⌊r⌋₊ ≤ k := by
    have : (⌊r⌋₊ : ℚ) ≤ k := le_trans hfl h
    exact_mod_cast this
  unfold roundHalfEven
  simp only
  rcases Nat.lt_or_ge ⌊r⌋₊ k with hlt | hge
  · split_ifs <;> omega
  · have heq : ⌊r⌋₊ = k := le_antisymm hk hge
    have hrk : r - (⌊r⌋₊ : ℚ) ≤ 0 := by
      rw [heq]
      linarith
    rw [if_pos (by linarith)]
    exact hk

/-- Rounding stays below an even integer exactly when the number is more than
one half below it. -/
theorem roundHalfEven_lt_iff (r : ℚ) (N : ℕ) (hr : 0 ≤ r) (hN : N % 2 = 0) (hpos : 0 < N) :
    roundHalfEven r < N ↔ r < (N : ℚ) - 1 / 2 := by
  have hfl : (⌊r⌋₊ : ℚ) ≤ r := Nat.floor_le hr
  have hlt : r < (⌊r⌋₊ : ℚ) + 1 := Nat.lt_floor_add_one r
  constructor
  · intro h
    by_contra hcon
    push_neg at hcon
    rcases le_or_lt (N : ℚ) r with hNr | hNr
    · exact absurd (le_roundHalfEven r N hNr) (not_le.mpr h)
    · have hf : ⌊r⌋₊ = N - 1 := by
        have h1 : ⌊r⌋₊ < N := (Nat.floor_lt hr).mpr hNr
        have h2 : N - 1 ≤ ⌊r⌋₊ := by
          apply Nat.le_floor
          have : ((N - 1 : ℕ) : ℚ) = (N : ℚ) - 1 := by
            rw [Nat.cast_sub hpos]
            simp
          rw [this]
          linarith
        omega
      have hcast : ((N - 1 : ℕ) : ℚ) = (N : ℚ) - 1 := by
        rw [Nat.cast_sub hpos]
        simp
      unfold roundHalfEven at h
      simp only [hf, hcast] at h
      have hfrac : ¬ (r - ((N : ℚ) - 1) < 1 / 2) := by
        push_neg
        linarith
      rw [if_neg hfrac] at h
      split_ifs at h <;> omega
  · intro h
    have hf : ⌊r⌋₊ < N := by
      apply (Nat.floor_lt hr).mpr
      linarith
    unfold roundHalfEven
    simp only
    rcases Nat.lt_or_ge (⌊r⌋₊ + 1) N with h1 | h1
    · split_ifs <;> omega
    · have hf2 : ⌊r⌋₊ = N - 1 := by omega
      have hcast : ((N - 1 : ℕ) : ℚ) = (N : ℚ) - 1 := by
        rw [Nat.cast_sub hpos]
        simp
      have hfrac : r - (⌊r⌋₊ : ℚ) < 1 / 2 := by
        rw [hf2, hcast]
        linarith
      rw [if_pos hfrac]
      exact hf

/-- The spacing is positive. -/
theorem ulp_pos (x : ℚ) : 0 < ulp x := by
  unfold ulp
  positivity

/-- The magnitude of a rounded number is the rounded magnitude. -/
theorem abs_roundDouble (x : ℚ) :
    |roundDouble x| = (roundHalfEven (|x| / ulp x) : ℚ) * ulp x := by
  have hnn : (0 : ℚ) ≤ (roundHalfEven (|x| / ulp x) : ℚ) * ulp x :=
    mul_nonneg (Nat.cast_nonneg _) (le_of_lt (ulp_pos x))
  unfold roundDouble
  simp only
  split_ifs
  · rw [abs_neg, abs_of_nonneg hnn]
  · exact abs_of_nonneg hnn

/-- The exponent of a number whose magnitude lies in a binade. -/
theorem binade_eq (x : ℚ) (e : ℤ) (he : -1022 ≤ e) (h1 : (2 : ℚ) ^ e ≤ |x|)
    (h2 : |x| < (2 : ℚ) ^ (e + 1)) : binade x = e := by
  have hpos : 0 < |x| := lt_of_lt_of_le (by positivity) h1
  have hle : e ≤ Int.log 2 |x| := (Int.zpow_le_iff_le_log (by norm_num) hpos).mp h1
  have hlt : Int.log 2 |x| < e + 1 := (Int.lt_zpow_iff_log_lt (by norm_num) hpos).mp h2
  unfold binade
  rw [max_eq_left (by omega)]
  omega

/-- The exponent of a non-zero number of magnitude below a power of two. -/
theorem binade_lt (x : ℚ) (k : ℤ) (hk : -1022 < k) (hpos : 0 < |x|) (h : |x| < (2 : ℚ) ^ k) :
    binade x < k := by
  unfold binade
  have hlt : Int.log 2 |x| < k := (Int.lt_zpow_iff_log_lt (by norm_num) hpos).mp h
  exact max_lt hlt hk

/-- A magnitude of at most a power of two is rounded to at most that power. -/
theorem abs_roundDouble_le_zpow (x : ℚ) (k : ℤ) (hk : -1022 < k) (h : |x| < (2 : ℚ) ^ k) :
    |roundDouble x| ≤ (2 : ℚ) ^ k := by
  rw [abs_roundDouble]
  rcases eq_or_lt_of_le (abs_nonneg x) with h0 | hpos
  · rw [← h0, zero_div]
    have : roundHalfEven 0 = 0 := by decide!
    rw [this]
    simp only [Nat.cast_zero, zero_mul]
    positivity
  · have hb := binade_lt x k hk hpos h
    have hu := ulp_pos x
    obtain ⟨d, hd⟩ : ∃ d : ℕ, k - (binade x - 52) = (d : ℤ) :=
      ⟨(k - (binade x - 52)).toNat, (Int.toNat_of_nonneg (by omega)).symm⟩
    have hpow : (2 : ℚ) ^ k = ((2 ^ d : ℕ) : ℚ) * ulp x := by
      unfold ulp
      rw [Nat.cast_pow, Nat.cast_ofNat, ← zpow_natCast, ← hd, ← zpow_add₀ (by norm_num)]
      congr 1
      ring
    have hle : |x| / ulp x ≤ ((2 ^ d : ℕ) : ℚ) := by
      rw [div_le_iff₀ hu, ← hpow]
      exact le_of_lt h
    have hr := roundHalfEven_le (|x| / ulp x) (2 ^ d) (div_nonneg (abs_nonneg x) (le_of_lt hu)) hle
    rw [hpow]
    exact mul_le_mul_of_nonneg_right (by exact_mod_cast hr) (le_of_lt hu)

/-- A magnitude of at least a power of two is rounded to at least that power. -/
theorem zpow_le_abs_roundDouble (x : ℚ) (k : ℤ) (hk : -1022 ≤ k) (h : (2 : ℚ) ^ k ≤ |x|) :
    (2 : ℚ) ^ k ≤ |roundDouble x| := by
  have hpos : 0 < |x| := lt_of_lt_of_le (by positivity) h
  have hlog : k ≤ Int.log 2 |x| := (Int.zpow_le_iff_le_log (by norm_num) hpos).mp h
  have hb : binade x = Int.log 2 |x| := by
    unfold binade
    exact max_eq_left (by omega)
  have hself : (2 : ℚ) ^ binade x ≤ |x| := by
    rw [hb]
    exact_mod_cast Int.zpow_log_le_self (by norm_num) hpos
  have hu := ulp_pos x
  have hpow : (2 : ℚ) ^ binade x = ((2 ^ 52 : ℕ) : ℚ) * ulp x := by
    unfold ulp
    rw [Nat.cast_pow, Nat.cast_ofNat, ← zpow_natCast, ← zpow_add₀ (by norm_num)]
    congr 1
    push_cast
    ring
  have hle : ((2 ^ 52 : ℕ) : ℚ) ≤ |x| / ulp x := by
    rw [le_div_iff₀ hu, ← hpow]
    exact hself
  have hr := le_roundHalfEven (|x| / ulp x) (2 ^ 52) hle
  rw [abs_roundDouble]
  calc (2 : ℚ) ^ k ≤ (2 : ℚ) ^ binade x := zpow_le_zpow_right₀ (by norm_num) (by omega)
    _ = ((2 ^ 52 : ℕ) : ℚ) * ulp x := hpow
    _ ≤ (roundHalfEven (|x| / ulp x) : ℚ) * ulp x :=
      mul_le_mul_of_nonneg_right (by exact_mod_cast hr) (le_of_lt hu)

/-- The rounded difference is below 0.25 in magnitude exactly when the exact one
is below `0.25 - 2^-56`: from there on it is rounded to 0.25 or more. -/
theorem abs_roundDouble_lt_quarter_iff (x : ℚ) :
    |roundDouble x| < 1 / 4 ↔ |x| < 1 / 4 - 1 / 2 ^ 56 := by
  rcases lt_or_le |x| (1 / 8) with h8 | h8
  · have h1 : |roundDouble x| ≤ (2 : ℚ) ^ (-3 : ℤ) :=
      abs_roundDouble_le_zpow x (-3) (by norm_num) (by
        have : (2 : ℚ) ^ (-3 : ℤ) = 1 / 8 := by norm_num
        rw [this]
        exact h8)
    have h2 : (2 : ℚ) ^ (-3 : ℤ) = 1 / 8 := by norm_num
    rw [h2] at h1
    constructor
    · intro _
      have : (1 : ℚ) / 8 < 1 / 4 - 1 / 2 ^ 56 := by norm_num
      linarith
    · intro _
      have : (1 : ℚ) / 8 < 1 / 4 := by norm_num
      linarith
  · rcases lt_or_le |x| (1 / 4) with h4 | h4
    · have hb : binade x = -3 := binade_eq x (-3) (by norm_num)
        (by
          have : (2 : ℚ) ^ (-3 : ℤ) = 1 / 8 := by norm_num
          rw [this]
          exact h8)
        (by
          have : (2 : ℚ) ^ ((-3 : ℤ) + 1) = 1 / 4 := by norm_num
          rw [this]
          exact h4)
      have hu : ulp x = 1 / 2 ^ 55 := by
        unfold ulp
        rw [hb]
        norm_num
      rw [abs_roundDouble, hu]
      have hiff := roundHalfEven_lt_iff (|x| / (1 / 2 ^ 55)) (2 ^ 53)
        (div_nonneg (abs_nonneg x) (by positivity)) (by norm_num) (by positivity)
      constructor
      · intro h
        have h1 : (roundHalfEven (|x| / (1 / 2 ^ 55)) : ℚ) < ((2 ^ 53 : ℕ) : ℚ) := by
          have : ((2 ^ 53 : ℕ) : ℚ) = 1 / 4 / (1 / 2 ^ 55) := by norm_num
          rw [this, lt_div_iff₀ (by positivity)]
          exact h
        have h2 := hiff.mp (by exact_mod_cast h1)
        rw [div_lt_iff₀ (by positivity)] at h2
        calc |x| < (((2 ^ 53 : ℕ) : ℚ) - 1 / 2) * (1 / 2 ^ 55) := h2
          _ = 1 / 4 - 1 / 2 ^ 56 := by norm_num
      · intro h
        have h2 : |x| / (1 / 2 ^ 55) < ((2 ^ 53 : ℕ) : ℚ) - 1 / 2 := by
          rw [div_lt_iff₀ (by positivity)]
          calc |x| < 1 / 4 - 1 / 2 ^ 56 := h
            _ = (((2 ^ 53 : ℕ) : ℚ) - 1 / 2) * (1 / 2 ^ 55) := by norm_num
        have h1 := hiff.mpr h2
        have h3 : (roundHalfEven (|x| / (1 / 2 ^ 55)) : ℚ) < ((2 ^ 53 : ℕ) : ℚ) := by
          exact_mod_cast h1
        calc (roundHalfEven (|x| / (1 / 2 ^ 55)) : ℚ) * (1 / 2 ^ 55)
            < ((2 ^ 53 : ℕ) : ℚ) * (1 / 2 ^ 55) :=
              mul_lt_mul_of_pos_right h3 (by positivity)
          _ = 1 / 4 := by norm_num
    · have h1 : (2 : ℚ) ^ (-2 : ℤ) ≤ |roundDouble x| :=
        zpow_le_abs_roundDouble x (-2) (by norm_num) (by
          have : (2 : ℚ) ^ (-2 : ℤ) = 1 / 4 := by norm_num
          rw [this]
          exact h4)
      have h2 : (2 : ℚ) ^ (-2 : ℤ) = 1 / 4 := by norm_num
      rw [h2] at h1
      constructor
      · intro h
        linarith
      · intro h
        have : (1 : ℚ) / 4 - 1 / 2 ^ 56 < 1 / 4 := by norm_num
        linarith

/-! ## The visible set -/

/-- The literal `0.25` is a binary64 value. -/
theorem toDouble_quarter : toDouble 0.25 = JSNum.finite (1 / 4) := by decide!

/-- The comparison of line 31 on two finite numbers. -/
theorem sub_abs_lt_quarter (a b : ℚ) :
    (((JSNum.finite a).sub (JSNum.finite b)).abs).lt (JSNum.finite (1 / 4)) = true ↔
      |a - b| < 1 / 4 - 1 / 2 ^ 56 := by
  rw [← abs_roundDouble_lt_quarter_iff]
  have hs : (JSNum.finite a).sub (JSNum.finite b) = toDouble (a - b) := rfl
  rw [hs]
  unfold toDouble
  split_ifs with h
  · have h4 : ¬ |roundDouble (a - b)| < 1 / 4 := by
      have : (1 : ℚ) / 4 ≤ 2 ^ 1024 := by norm_num
      push_neg
      exact le_trans this h
    constructor
    · intro hlt
      simp [JSNum.abs, JSNum.lt] at hlt
    · intro hlt
      exact absurd hlt h4
  · simp [JSNum.abs, JSNum.lt]

/-- The filter predicate, as a proposition. -/
theorem isVisible_iff (t : ℚ) (box : Box) :
    isVisible t box = true ↔
      (box.timestamp.typeof ≠ "number" ∨
        ∃ ts a b, box.timestamp = JSVal.num ts ∧ toDouble ts = JSNum.finite a ∧
          toDouble t = JSNum.finite b ∧ |a - b| < 1 / 4 - 1 / 2 ^ 56) := by
  unfold isVisible
  cases h : box.timestamp with
  | num ts =>
    simp only [JSVal.typeof, ne_eq, not_true_eq_false, false_or, JSVal.num.injEq,
      toDouble_quarter]
    constructor
    · intro hv
      cases hts : toDouble ts with
      | nan => simp [hts, JSNum.sub, JSNum.abs, JSNum.lt] at hv
      | infinity n =>
        cases ht : toDouble t with
        | nan => simp [hts, ht, JSNum.sub, JSNum.abs, JSNum.lt] at hv
        | infinity m =>
          by_cases hnm : n = m <;> simp [hts, ht, JSNum.sub, JSNum.abs, JSNum.lt, hnm] at hv
        | finite b => simp [hts, ht, JSNum.sub, JSNum.abs, JSNum.lt] at hv
      | finite a =>
        cases ht : toDouble t with
        | nan => simp [hts, ht, JSNum.sub, JSNum.abs, JSNum.lt] at hv
        | infinity n => simp [hts, ht, JSNum.sub, JSNum.abs, JSNum.lt] at hv
        | finite b =>
          rw [hts, ht] at hv
          exact ⟨ts, a, b, rfl, hts, rfl, (sub_abs_lt_quarter a b).mp hv⟩
    · rintro ⟨ts1, a, b, h1, h2, h3, h4⟩
      subst h1
      rw [h2, h3]
      exact (sub_abs_lt_quarter a b).mpr h4
  | undefined => simp [JSVal.typeof]
  | null => simp [JSVal.typeof]
  | bool b => simp [JSVal.typeof]
  | str s => simp [JSVal.typeof]

/-- The timestamp `3.0` is within the window at `3.1` and outside it at `4.0`. -/
theorem isVisible_scenario (x1 y1 x2 y2 : ℚ) (c : Option ℚ) :
    isVisible 3.1 ⟨x1, y1, x2, y2, c, JSVal.num 3.0⟩ = true ∧
      isVisible 4.0 ⟨x1, y1, x2, y2, c, JSVal.num 3.0⟩ = false := by
  unfold isVisible
  simp only
  constructor <;> decide!

/-- C1 (counterexample): the binary64 values written `0.3` and `0.05` differ by
less than 0.25 (by `0.25 - 2^-56`), yet a box with timestamp `0.3` is not
visible at `0.05`, because the difference is rounded to exactly 0.25; and the
decimals `0.1` and `0.35` differ by exactly 0.25, yet a box with timestamp `0.1`
is visible at `0.35`, because the values they denote differ by `0.25 - 2^-55`. -/
theorem visible_boundary_rounding :
    toDouble 0.3 = JSNum.finite (5404319552844595 / 2 ^ 54) ∧
    toDouble 0.05 = JSNum.finite (7205759403792794 / 2 ^ 57) ∧
    |(5404319552844595 / 2 ^ 54 : ℚ) - 7205759403792794 / 2 ^ 57| < 0.25 ∧
    (⟨10, 10, 50, 50, some 0.87, JSVal.num 0.3⟩ : Box) ∉
      visibleBoxes [⟨10, 10, 50, 50, some 0.87, JSVal.num 0.3⟩] 0.05 ∧
    |(0.1 : ℚ) - 0.35| = 0.25 ∧
    (⟨10, 10, 50, 50, some 0.87, JSVal.num 0.1⟩ : Box) ∈
      visibleBoxes [⟨10, 10, 50, 50, some 0.87, JSVal.num 0.1⟩] 0.35 := by
  refine ⟨by decide!, by decide!, by decide!, by decide!, by decide!, by decide!⟩

/-- C1 (amended): a box is in the visible set of `drawBoxes` exactly when it is in
the detections list and its timestamp is not a number, or timestamp and
`currentTime` are finite and differ, as exact values, by less than
`0.25 - 2^-56`; equivalently, the difference the code computes, rounded to
binary64, is finite and below 0.25 in magnitude.  A difference of 0.25 or more
is never visible; a box whose timestamp is not a number is visible at every
time; a box with timestamp 3.0 is visible at 3.1 and not at 4.0. -/
theorem visibleBoxes_mem_iff (detections : List Box) (box : Box) (currentTime : ℚ) :
    (box ∈ visibleBoxes detections currentTime ↔
      box ∈ detections ∧
        (box.timestamp.typeof ≠ "number" ∨
          ∃ ts a b, box.timestamp = JSVal.num ts ∧ toDouble ts = JSNum.finite a ∧
            toDouble currentTime = JSNum.finite b ∧ |a - b| < 1 / 4 - 1 / 2 ^ 56)) ∧
    (box ∈ visibleBoxes detections currentTime ↔
      box ∈ detections ∧
        (box.timestamp.typeof ≠ "number" ∨
          ∃ ts d, box.timestamp = JSVal.num ts ∧
            (toDouble ts).sub (toDouble currentTime) = JSNum.finite d ∧ |d| < 0.25)) ∧
    (∀ ts a b, box.timestamp = JSVal.num ts → toDouble ts = JSNum.finite a →
      toDouble currentTime = JSNum.finite b → 0.25 ≤ |a - b| →
      box ∉ visibleBoxes detections currentTime) ∧
    (box ∈ detections → box.timestamp.typeof ≠ "number" →
      ∀ t, box ∈ visibleBoxes detections t) ∧
    (∀ x1 y1 x2 y2 c, (⟨x1, y1, x2, y2, c, JSVal.num 3.0⟩ : Box) ∈ detections →
      (⟨x1, y1, x2, y2, c, JSVal.num 3.0⟩ : Box) ∈ visibleBoxes detections 3.1 ∧
      (⟨x1, y1, x2, y2, c, JSVal.num 3.0⟩ : Box) ∉ visibleBoxes detections 4.0) := by
  refine ⟨?_, ?_, ?_, ?_, ?_⟩
  · simp only [visibleBoxes, List.mem_filter, isVisible_iff]
  · simp only [visibleBoxes, List.mem_filter]
    apply and_congr_right
    intro _
    unfold isVisible
    cases h : box.timestamp with
    | num ts =>
      simp only [JSVal.typeof, ne_eq, not_true_eq_false, false_or, JSVal.num.injEq,
        toDouble_quarter, exists_and_left, exists_eq_left']
      cases hs : (toDouble ts).sub (toDouble currentTime) with
      | nan => simp [JSNum.abs, JSNum.lt]
      | infinity n => simp [JSNum.abs, JSNum.lt]
      | finite d =>
        simp only [JSNum.abs, JSNum.lt, decide_eq_true_eq, JSNum.finite.injEq, exists_eq_left']
        norm_num
    | undefined => simp [JSVal.typeof]
    | null => simp [JSVal.typeof]
    | bool b => simp [JSVal.typeof]
    | str s => simp [JSVal.typeof]
  · intro ts a b hts ha hb habs hmem
    simp only [visibleBoxes, List.mem_filter, isVisible_iff] at hmem
    rcases hmem.2 with hty | ⟨ts1, a1, b1, h1, h2, h3, h4⟩
    · rw [hts] at hty
      exact hty rfl
    · rw [hts] at h1
      cases h1
      rw [ha] at h2
      rw [hb] at h3
      cases h2
      cases h3
      have : (1 : ℚ) / 4 - 1 / 2 ^ 56 < 0.25 := by norm_num
      linarith
  · intro hmem hty t
    simp only [visibleBoxes, List.mem_filter, isVisible_iff]
    exact ⟨hmem, Or.inl hty⟩
  · intro x1 y1 x2 y2 c hmem
    have hs := isVisible_scenario x1 y1 x2 y2 c
    simp only [visibleBoxes, List.mem_filter]
    refine ⟨⟨hmem, hs.1⟩, ?_⟩
    rw [hs.2]
    simp

/-- Witness of C1 on the scenario box. -/
theorem visibleBoxes_mem_iff_witness :
    (⟨10, 10, 50, 50, some 0.87, JSVal.num 3.0⟩ : Box) ∈
        visibleBoxes [⟨10, 10, 50, 50, some 0.87, JSVal.num 3.0⟩] 3.1 ∧
      (⟨10, 10, 50, 50, some 0.87, JSVal.num 3.0⟩ : Box) ∉
        visibleBoxes [⟨10, 10, 50, 50, some 0.87, JSVal.num 3.0⟩] 4.0 :=
  (visibleBoxes_mem_iff [⟨10, 10, 50, 50, some 0.87, JSVal.num 3.0⟩]
    ⟨10, 10, 50, 50, some 0.87, JSVal.num 3.0⟩ 0).2.2.2.2 10 10 50 50 (some 0.87)
    (List.mem_singleton.mpr rfl)

/-- The scenario box is visible at 3.1. -/
theorem visibleBoxes_scenario : visibleBoxes [scenarioBox] 3.1 = [scenarioBox] := by decide!

/-! ## The timeline strip -/

/-- The offset of the code is that of the specification. -/
theorem markerLeft_eq_spec (duration t : ℚ) (h : 0 < duration) :
    markerLeft duration t = specClamp t 0 duration / duration * 100 := by
  unfold markerLeft specClamp
  by_cases h1 : t < 0
  · simp [h1, min_eq_right (le_of_lt (lt_trans h1 h)), max_eq_left (le_of_lt h1)]
  · by_cases h2 : duration < t
    · simp [h1, h2, min_eq_left (le_of_lt h2), max_eq_right (le_of_lt h)]
    · push_neg at h1 h2
      simp [not_lt.mpr h1, not_lt.mpr h2, min_eq_right h2, max_eq_right h1]

/-- C2: for a positive duration the left offset of a marker is
`clamp(t, 0, duration) / duration * 100` and lies between 0 and 100; duration 10
with marker 2.5 gives 25, a marker above the duration gives 100, a negative one
gives 0; the strip, and with it the division, is evaluated only when the
duration is positive and the marker list is not empty. -/
theorem markerLeft_clamped (duration t : ℚ) (h : 0 < duration) :
    markerLeft duration t = specClamp t 0 duration / duration * 100 ∧
    0 ≤ markerLeft duration t ∧ markerLeft duration t ≤ 100 ∧
    markerLeft 10 2.5 = 25 ∧
    (duration < t → markerLeft duration t = 100) ∧
    (t < 0 → markerLeft duration t = 0) ∧
    (∀ markers : List ℚ, ∀ videoDuration : ℚ,
      timelineStrip markers videoDuration =
        if 0 < videoDuration ∧ markers ≠ [] then some (markers.map (markerLeft videoDuration))
        else none) := by
  have hne : duration ≠ 0 := ne_of_gt h
  have hc0 : 0 ≤ max 0 (min duration t) := le_max_left _ _
  have hc1 : max 0 (min duration t) ≤ duration := max_le (le_of_lt h) (min_le_left _ _)
  refine ⟨markerLeft_eq_spec duration t h, ?_, ?_, ?_, ?_, ?_, ?_⟩
  · unfold markerLeft
    positivity
  · unfold markerLeft
    have : max 0 (min duration t) / duration ≤ 1 := (div_le_one h).mpr hc1
    linarith
  · unfold markerLeft
    norm_num
  · intro ht
    unfold markerLeft
    rw [min_eq_left (le_of_lt ht), max_eq_right (le_of_lt h)]
    field_simp
  · intro ht
    unfold markerLeft
    rw [min_eq_right (le_of_lt (lt_trans ht h)), max_eq_left (le_of_lt ht)]
    simp
  · intro markers vd
    unfold timelineStrip orNum
    by_cases hv : vd = 0
    · simp [hv]
    · simp [hv, List.length_pos]

/-- Witness of C2 at duration 10. -/
theorem markerLeft_clamped_witness :
    (0 : ℚ) < 10 ∧ markerLeft 10 2.5 = specClamp 2.5 0 10 / 10 * 100 ∧
      markerLeft 10 12 = 100 ∧ markerLeft 10 (-3) = 0 :=
  ⟨by norm_num, (markerLeft_clamped 10 2.5 (by norm_num)).1,
    (markerLeft_clamped 10 12 (by norm_num)).2.2.2.2.1 (by norm_num),
    (markerLeft_clamped 10 (-3) (by norm_num)).2.2.2.2.2.1 (by norm_num)⟩

/-! ## The sequence of drawing calls -/

/-- The rectangles stroked for a list of boxes are those of the boxes, in order. -/
theorem strokedRects_boxesCalls (mt : String → String → ℚ) (bs : List Box) (font : String) :
    strokedRects (boxesCalls mt font bs) = bs.map boxRect := by
  induction bs generalizing font with
  | nil => rfl
  | cons b bs ih => simp [boxesCalls, boxCalls, strokedRects, ih, boxRect]

/-- The calls one repaint issues. -/
theorem issued_drawBoxes (mt : String → String → ℚ) (env : Env) (t : ℚ) :
    issued env.canvas (drawBoxes mt env t).canvas =
      if env.canvas.context then
        DrawCall.clearRect 0 0 env.canvas.width env.canvas.height ::
          boxesCalls mt env.canvas.state.font (visibleBoxes env.detections t)
      else [] := by
  unfold issued
  rw [drawBoxes_calls, List.drop_left]

/-- A repaint changes neither the detections nor the video element. -/
theorem drawBoxes_frame (mt : String → String → ℚ) (env : Env) (t : ℚ) :
    (drawBoxes mt env t).detections = env.detections ∧ (drawBoxes mt env t).video = env.video := by
  unfold drawBoxes
  cases env.canvas.context <;> simp

/-- C3 (counterexample): on a canvas whose `getContext("2d")` yields no context,
a repaint over the empty detections list issues no call at all, so it is not the
clear of the whole surface. -/
theorem drawBoxes_without_context_no_clear :
    issued (freshCanvas false) (drawBoxes fontWidth ⟨[], scenarioVideo 0, freshCanvas false⟩ 0).canvas ≠
      [DrawCall.clearRect 0 0 (freshCanvas false).width (freshCanvas false).height] := by
  rw [show freshCanvas false = (⟨[], scenarioVideo 0, freshCanvas false⟩ : Env).canvas from rfl,
    issued_drawBoxes]
  simp [freshCanvas]

/-- C3 (amended): without a 2D context a repaint does nothing; with one, the
calls it issues are one clear of the whole surface `(0, 0, width, height)`
followed, for each visible box in input order, by the stroked rectangle
`(x1, y1, x2 - x1, y2 - y1)`, the label chip and the label text, and for the
empty detections list they are the clear alone, leaving the surface empty. The
visible boxes are an order-preserving sublist of the input and the input list
is left unchanged. -/
theorem drawBoxes_sequence (measureText : String → String → ℚ) (env : Env) (currentTime : ℚ) :
    (env.canvas.context = false → drawBoxes measureText env currentTime = env) ∧
    (env.canvas.context = true →
      issued env.canvas (drawBoxes measureText env currentTime).canvas =
          DrawCall.clearRect 0 0 env.canvas.width env.canvas.height ::
            boxesCalls measureText env.canvas.state.font (visibleBoxes env.detections currentTime) ∧
        strokedRects (issued env.canvas (drawBoxes measureText env currentTime).canvas) =
          (visibleBoxes env.detections currentTime).map boxRect ∧
        (env.detections = [] →
          issued env.canvas (drawBoxes measureText env currentTime).canvas =
              [DrawCall.clearRect 0 0 env.canvas.width env.canvas.height] ∧
            (drawBoxes measureText env currentTime).canvas.surface = [])) ∧
    (visibleBoxes env.detections currentTime).Sublist env.detections ∧
    (drawBoxes measureText env currentTime).detections = env.detections := by
  refine ⟨?_, ?_, ?_, (drawBoxes_frame measureText env currentTime).1⟩
  · intro h
    simp [drawBoxes, h]
  · intro h
    have hi := issued_drawBoxes measureText env currentTime
    simp only [h, if_true] at hi
    refine ⟨hi, ?_, ?_⟩
    · rw [hi]
      simp [strokedRects, strokedRects_boxesCalls]
    · intro hd
      refine ⟨?_, ?_⟩
      · rw [hi, hd]
        simp [visibleBoxes, boxesCalls]
      · simp [drawBoxes, h, hd, visibleBoxes, Canvas.clearRect]
  · exact List.filter_sublist _

/-- Witness of C3 (amended): with a context and no detections the repaint is the
clear alone. -/
theorem drawBoxes_sequence_witness :
    issued (freshCanvas true)
        (drawBoxes fontWidth ⟨[], scenarioVideo 0, freshCanvas true⟩ 0).canvas =
      [DrawCall.clearRect 0 0 300 150] := by
  have h := ((drawBoxes_sequence fontWidth ⟨[], scenarioVideo 0, freshCanvas true⟩ 0).2.1 rfl).2.2 rfl
  simpa [freshCanvas] using h.1

/-- Every call drawing a list of boxes is one of the three calls of a box of the list. -/
theorem mem_boxesCalls (mt : String → String → ℚ) (c : DrawCall) (bs : List Box) (font : String) :
    c ∈ boxesCalls mt font bs → ∃ b ∈ bs, ∃ f, c ∈ boxCalls mt f b := by
  induction bs generalizing font with
  | nil => simp [boxesCalls]
  | cons b bs ih =>
    intro h
    rw [boxesCalls, List.mem_append] at h
    rcases h with h | h
    · exact ⟨b, List.mem_cons_self _ _, font, h⟩
    · obtain ⟨b1, hb1, f, hf⟩ := ih _ h
      exact ⟨b1, List.mem_cons_of_mem _ hb1, f, hf⟩

/-- The three calls of every box of the list are issued. -/
theorem boxCalls_subset_boxesCalls (mt : String → String → ℚ) (b : Box) (bs : List Box)
    (font : String) (hb : b ∈ bs) : ∃ f, ∀ c ∈ boxCalls mt f b, c ∈ boxesCalls mt font bs := by
  induction bs generalizing font with
  | nil => simp at hb
  | cons b1 bs ih =>
    rcases List.mem_cons.mp hb with h | h
    · subst h
      exact ⟨font, fun c hc => by rw [boxesCalls]; exact List.mem_append_left _ hc⟩
    · obtain ⟨f, hf⟩ := ih "10px system-ui" h
      exact ⟨f, fun c hc => by rw [boxesCalls]; exact List.mem_append_right _ (hf c hc)⟩

/-- The closure `resizeCanvas` is the two assignments followed by a repaint. -/
theorem resizeCanvas_eq (mt : String → String → ℚ) (env : Env) :
    resizeCanvas mt env = drawBoxes mt (resizedEnv env) (orNum env.video.currentTime 0) := rfl

/-- The calls the repaint of `resizeCanvas` issues. -/
theorem issued_resizeCanvas (mt : String → String → ℚ) (env : Env) :
    issued env.canvas (resizeCanvas mt env).canvas =
      if env.canvas.context then
        DrawCall.clearRect 0 0 (orDim (orDim env.video.clientWidth env.video.videoWidth) 640)
            (orDim (orDim env.video.clientHeight env.video.videoHeight) 360) ::
          boxesCalls mt "10px sans-serif"
            (visibleBoxes env.detections (orNum env.video.currentTime 0))
      else [] := by
  have h := issued_drawBoxes mt (resizedEnv env) (orNum env.video.currentTime 0)
  rw [resizeCanvas_eq]
  simpa [issued, resizedEnv, Canvas.setWidth, Canvas.setHeight] using h

/-! ## The size of the drawing surface -/

/-- C4: after `resizeCanvas` the width of the surface is `clientWidth` when that is
not zero, else `videoWidth` when that is not zero, else 640, and the height is
`clientHeight`, else `videoHeight`, else 360; both are strictly positive (the
dimensions of the video element are natural numbers). -/
theorem resizeCanvas_dims (measureText : String → String → ℚ) (env : Env) :
    (resizeCanvas measureText env).canvas.width =
        (if env.video.clientWidth ≠ 0 then env.video.clientWidth
          else if env.video.videoWidth ≠ 0 then env.video.videoWidth else 640) ∧
      (resizeCanvas measureText env).canvas.height =
        (if env.video.clientHeight ≠ 0 then env.video.clientHeight
          else if env.video.videoHeight ≠ 0 then env.video.videoHeight else 360) ∧
      0 < (resizeCanvas measureText env).canvas.width ∧
      0 < (resizeCanvas measureText env).canvas.height := by
  have hd := drawBoxes_dims measureText (resizedEnv env) (orNum env.video.currentTime 0)
  have hw : (resizeCanvas measureText env).canvas.width =
      orDim (orDim env.video.clientWidth env.video.videoWidth) 640 := by
    rw [resizeCanvas_eq, hd.1]
    rfl
  have hh : (resizeCanvas measureText env).canvas.height =
      orDim (orDim env.video.clientHeight env.video.videoHeight) 360 := by
    rw [resizeCanvas_eq, hd.2.1]
    rfl
  rw [hw, hh]
  unfold orDim
  refine ⟨?_, ?_, ?_, ?_⟩
  · split_ifs <;> simp_all
  · split_ifs <;> simp_all
  · split_ifs <;> omega
  · split_ifs <;> omega

/-! ## The label chip -/

/-- C6: every label chip a repaint draws is a filled rectangle whose left edge is
the `x1` of a visible box, whose height is 18 and whose top edge is
`max(0, y1 - 18)`: the top edge is never negative, and when `y1 >= 18` the bottom
edge is `y1`; with a context every visible box gets its chip. -/
theorem labelChip_geometry (measureText : String → String → ℚ) (env : Env) (currentTime : ℚ) :
    (∀ x y w h, DrawCall.fillRect x y w h ∈
        issued env.canvas (drawBoxes measureText env currentTime).canvas →
      ∃ box ∈ visibleBoxes env.detections currentTime,
        x = box.x1 ∧ h = 18 ∧ y = max 0 (box.y1 - 18) ∧ 0 ≤ y ∧ (18 ≤ box.y1 → y + h = box.y1)) ∧
    (env.canvas.context = true → ∀ box ∈ visibleBoxes env.detections currentTime,
      ∃ w, DrawCall.fillRect box.x1 (max 0 (box.y1 - 18)) w 18 ∈
        issued env.canvas (drawBoxes measureText env currentTime).canvas) := by
  rw [issued_drawBoxes]
  refine ⟨?_, ?_⟩
  · intro x y w h hmem
    cases hc : env.canvas.context
    · simp [hc] at hmem
    · simp only [hc, if_true, List.mem_cons] at hmem
      rcases hmem with hmem | hmem
      · cases hmem
      · obtain ⟨b, hb, f, hf⟩ := mem_boxesCalls _ _ _ _ hmem
        refine ⟨b, hb, ?_⟩
        simp only [boxCalls, List.mem_cons, List.mem_singleton, DrawCall.fillRect.injEq] at hf
        rcases hf with hf | hf | hf
        · cases hf
        · obtain ⟨rfl, rfl, rfl, rfl⟩ := hf
          refine ⟨rfl, rfl, rfl, le_max_left _ _, ?_⟩
          intro h18
          rw [max_eq_right (by linarith)]
          ring
        · simp at hf
  · intro hc box hb
    obtain ⟨f, hf⟩ := boxCalls_subset_boxesCalls measureText box _ env.canvas.state.font hb
    refine ⟨measureText f (boxLabel box) + 10, ?_⟩
    simp only [hc, if_true]
    exact List.mem_cons_of_mem _ (hf _ (by simp [boxCalls]))

/-- Witness of C6: the chip of the scenario box is drawn. -/
theorem labelChip_geometry_witness :
    ∃ w, DrawCall.fillRect scenarioBox.x1 (max 0 (scenarioBox.y1 - 18)) w 18 ∈
      issued (freshCanvas true)
        (drawBoxes fontWidth ⟨[scenarioBox], scenarioVideo 3.1, freshCanvas true⟩ 3.1).canvas :=
  (labelChip_geometry fontWidth ⟨[scenarioBox], scenarioVideo 3.1, freshCanvas true⟩ 3.1).2 rfl
    scenarioBox (by
      rw [visibleBoxes_scenario]
      exact List.mem_singleton.mpr rfl)

/-! ## Upload failures -/

/-- The error message `handleUpload` sets is never empty. -/
theorem orStr_ne_empty (a b : String) (hb : b ≠ "") : orStr a b ≠ "" := by
  unfold orStr
  split_ifs with h
  · exact h
  · exact hb

/-- A failed outcome leaves the `try` block through a thrown error. -/
theorem tryUpload_failed (outcome : Outcome) (h : outcome.failed = true) :
    ∃ message, tryUpload outcome = Except.error message := by
  cases outcome with
  | rejected m => exact ⟨m, rfl⟩
  | notOk body =>
    cases body with
    | unparsable => exact ⟨_, rfl⟩
    | null m => exact ⟨m, rfl⟩
    | object e => exact ⟨_, rfl⟩
  | okUnparsable m => exact ⟨m, rfl⟩
  | okJson d => simp [Outcome.failed] at h

/-- C5: when a file is selected and the request fails (it rejects, the status is
not OK, or the body of an OK reply does not parse), `handleUpload` sets an error
message that is not empty and calls `onUploadComplete` with the result
`accident: false, confidence: 0, boxes: []`; with the callbacks of `Home` this is
`handleUploadComplete` on that result, which leaves the page with no detections,
`accident = false`, `confidence = 0`, `accidentTime = null`, empty type, objects,
severity and markers, `videoDuration = 0` and `loading = false`, whatever the
state before. -/
theorem upload_failure_normalised {σ : Type} (props : Props σ) (outcome : Outcome)
    (card : UploadCard) (parent : σ) (file : File)
    (hfile : card.file = some file) (hfailed : outcome.failed = true) :
    (handleUpload props outcome card parent).card.error ≠ "" ∧
    (handleUpload props outcome card parent).parent =
      callUploadComplete props file (some failureResult) (callUploadStart props parent) ∧
    failureResult = { accident := JSVal.bool false, confidence := some 0, boxes := some [] } ∧
    (∀ (backendUrl : String) (createObjectURL : File → String) (home : Home),
      (handleUpload (homeProps backendUrl createObjectURL) outcome card home).parent =
        handleUploadComplete createObjectURL (some file) (some failureResult)
          (handleUploadStart home)) ∧
    (∀ (createObjectURL : File → String) (home : Home),
      handleUploadComplete createObjectURL (some file) (some failureResult) home =
        { videoUrl := some (createObjectURL file)
          detections := []
          accident := false
          confidence := 0
          loading := false
          accidentTime := none
          accidentType := ""
          objectsInvolved := []
          severity := ""
          videoDuration := 0
          timelineMarkers := [] }) := by
  obtain ⟨message, hm⟩ := tryUpload_failed outcome hfailed
  refine ⟨?_, ?_, rfl, ?_, ?_⟩
  · simp only [handleUpload, hfile, hm]
    exact orStr_ne_empty _ _ (by decide)
  · simp only [handleUpload, hfile, hm]
  · intro backendUrl createObjectURL home
    simp only [handleUpload, hfile, hm]
    rfl
  · intro createObjectURL home
    simp [handleUploadComplete, failureResult, orListOpt, orNumOpt, orStrOpt, orNum, JSVal.truthy]

/-- Witness of C5: the request is rejected. -/
theorem upload_failure_normalised_witness :
    (handleUpload (homeProps "http://localhost:5000" fun (f : File) => "blob:" ++ f.name)
        (Outcome.rejected "Failed to fetch") ⟨some ⟨"crash.mp4", "video/mp4"⟩, ""⟩
        ⟨none, [scenarioBox], true, 0.87, false, some 3, "Collision", ["car"], "High", 10,
          [3]⟩).card.error ≠ "" :=
  (upload_failure_normalised (homeProps "http://localhost:5000" fun (f : File) => "blob:" ++ f.name)
    (Outcome.rejected "Failed to fetch") ⟨some ⟨"crash.mp4", "video/mp4"⟩, ""⟩
    ⟨none, [scenarioBox], true, 0.87, false, some 3, "Collision", ["car"], "High", 10, [3]⟩
    ⟨"crash.mp4", "video/mp4"⟩ rfl rfl).1

/-! ## The label text -/

/-- A number below ten is written with one digit. -/
theorem padDigits_one (d : ℕ) (h : d < 10) : padDigits d 1 = toString d := by
  interval_cases d <;> rfl

/-- Below `10^21` and with one fraction digit `toFixed` writes the sign, the
integer part, a point and one digit. -/
theorem toFixed_one (x : ℚ) (h : |x| < 10 ^ 21) :
    toFixed (JSNum.finite x) 1 =
      (if x < 0 then "-" else "") ++ toString (⌊|x| * 10 + 1 / 2⌋₊ / 10) ++ "." ++
        toString (⌊|x| * 10 + 1 / 2⌋₊ % 10) := by
  unfold toFixed
  simp only [pow_one, one_ne_zero, if_false, not_le.mpr h]
  rw [padDigits_one _ (Nat.mod_lt _ (by norm_num))]

/-- The value of a number whose magnitude lies in a binade, from the rounded
significand. -/
theorem toDouble_eq (x c : ℚ) (e : ℤ) (he : -1022 ≤ e) (h1 : (2 : ℚ) ^ e ≤ |x|)
    (h2 : |x| < (2 : ℚ) ^ (e + 1))
    (hc : (if x < 0 then -((roundHalfEven (|x| / 2 ^ (e - 52)) : ℚ) * 2 ^ (e - 52))
      else (roundHalfEven (|x| / 2 ^ (e - 52)) : ℚ) * 2 ^ (e - 52)) = c)
    (hfin : |c| < 2 ^ 1024) : toDouble x = JSNum.finite c := by
  have hr : roundDouble x = c := by
    unfold roundDouble ulp
    rw [binade_eq x e he h1 h2]
    exact hc
  unfold toDouble
  rw [hr, if_neg (not_le.mpr hfin)]

/-- The label of the scenario box. -/
theorem boxLabel_scenarioBox : boxLabel scenarioBox = "Accident 87.0%" := by decide!

/-- The product is rounded before it is printed: `0.1235 * 100` is the binary64
value just below `12.35`, printed as `12.3`. -/
theorem boxLabel_rounds_product :
    boxLabel ⟨10, 10, 50, 50, some 0.1235, JSVal.num 3.0⟩ = "Accident 12.3%" := by decide!

/-- The product `1e19 * 100` is the binary64 value `1e21`. -/
theorem confidence_product_big :
    (confidenceNumber (some (10 ^ 19))).mul (toDouble 100) = JSNum.finite (10 ^ 21) := by
  have h19 : toDouble (10 ^ 19) = JSNum.finite (10 ^ 19) :=
    toDouble_eq _ _ 63 (by decide!) (by decide!) (by decide!) (by decide!) (by decide!)
  have h100 : toDouble 100 = JSNum.finite 100 := by decide!
  have h21 : toDouble (10 ^ 19 * 100) = JSNum.finite (10 ^ 21) :=
    toDouble_eq _ _ 69 (by decide!) (by decide!) (by decide!) (by decide!) (by decide!)
  show (toDouble (10 ^ 19)).mul (toDouble 100) = JSNum.finite (10 ^ 21)
  rw [h19, h100]
  exact h21

/-- The exponent notation of `1e21`. -/
theorem exponentNotation_big : exponentNotation (10 ^ 21) = "1e+21" := by
  have h1 : toDouble ((1 : ℕ) * 10 ^ 21) = JSNum.finite ((10 ^ 21 : ℕ) : ℚ) :=
    toDouble_eq _ _ 69 (by decide!) (by decide!) (by decide!) (by decide!) (by decide!)
  have h2 : toDouble ((2 : ℕ) * 10 ^ 21) = JSNum.finite (2 * 10 ^ 21) :=
    toDouble_eq _ _ 70 (by decide!) (by decide!) (by decide!) (by decide!) (by decide!)
  have hlen : (toString (10 ^ 21 : ℕ)).length = 22 := by decide!
  have r1 : readsBack (10 ^ 21) 1 21 = true := by
    unfold readsBack
    rw [h1]
    decide!
  have r2 : readsBack (10 ^ 21) 2 21 = false := by
    unfold readsBack
    rw [h2]
    decide!
  have hs : shortestDecimal (10 ^ 21) 17 1 = (1, 22) := by
    unfold shortestDecimal
    simp only [hlen]
    have e1 : (10 ^ 21 : ℕ) / 10 ^ (22 - 1) = 1 := by decide!
    simp only [e1, r1, r2]
    decide!
  unfold exponentNotation
  rw [hs]
  decide!

/-- The label of a box of confidence `1e19`, and of a box without confidence. -/
theorem boxLabel_out_of_range :
    boxLabel ⟨10, 10, 50, 50, some (10 ^ 19), JSVal.num 3.0⟩ = "Accident 1e+21%" ∧
      boxLabel ⟨10, 10, 50, 50, none, JSVal.num 3.0⟩ = "Accident NaN%" := by
  constructor
  · unfold boxLabel
    simp only
    rw [confidence_product_big]
    have hfl : ⌊|(10 : ℚ) ^ 21|⌋₊ = 10 ^ 21 := by decide!
    have hge : (10 : ℚ) ^ 21 ≤ |(10 : ℚ) ^ 21| := by decide!
    have hneg : ¬ ((10 : ℚ) ^ 21 < 0) := by decide!
    unfold toFixed
    simp only [hge, if_true, hneg, if_false, hfl, exponentNotation_big]
    decide!
  · decide!

/-- The literal `100` is a binary64 value. -/
theorem toDouble_hundred : toDouble 100 = JSNum.finite 100 := by decide!

/-- The product `confidence * 100` of a confidence of magnitude at most one is
finite and below `10^21`. -/
theorem confidence_product_small (c : ℚ) (hc : |c| ≤ 1) :
    ∃ product : ℚ, (confidenceNumber (some c)).mul (toDouble 100) = JSNum.finite product ∧
      |product| < 10 ^ 21 := by
  have h1 : |roundDouble c| ≤ (2 : ℚ) ^ (1 : ℤ) :=
    abs_roundDouble_le_zpow c 1 (by norm_num) (by
      have : (2 : ℚ) ^ (1 : ℤ) = 2 := by norm_num
      rw [this]
      linarith)
  have h2 : (2 : ℚ) ^ (1 : ℤ) = 2 := by norm_num
  rw [h2] at h1
  have hfin : ¬ ((2 : ℚ) ^ 1024 ≤ |roundDouble c|) := by
    have : (2 : ℚ) < 2 ^ 1024 := by norm_num
    push_neg
    linarith
  have hprod : |roundDouble c * 100| < (2 : ℚ) ^ (8 : ℤ) := by
    rw [abs_mul]
    have : |(100 : ℚ)| = 100 := by norm_num
    rw [this]
    have : (2 : ℚ) ^ (8 : ℤ) = 256 := by norm_num
    rw [this]
    linarith
  have h3 : |roundDouble (roundDouble c * 100)| ≤ (2 : ℚ) ^ (8 : ℤ) :=
    abs_roundDouble_le_zpow _ 8 (by norm_num) hprod
  have h4 : (2 : ℚ) ^ (8 : ℤ) = 256 := by norm_num
  rw [h4] at h3
  have hfin2 : ¬ ((2 : ℚ) ^ 1024 ≤ |roundDouble (roundDouble c * 100)|) := by
    have : (256 : ℚ) < 2 ^ 1024 := by norm_num
    push_neg
    linarith
  refine ⟨roundDouble (roundDouble c * 100), ?_, ?_⟩
  · show (toDouble c).mul (toDouble 100) = _
    rw [toDouble_hundred]
    unfold toDouble
    rw [if_neg hfin]
    show toDouble (roundDouble c * 100) = _
    unfold toDouble
    rw [if_neg hfin2]
  · have : (256 : ℚ) < 10 ^ 21 := by norm_num
    linarith

/-- A label whose number is finite and below `10^21` has one digit after the point. -/
theorem boxLabel_shape (box : Box) (product : ℚ)
    (hp : (confidenceNumber box.confidence).mul (toDouble 100) = JSNum.finite product)
    (hlt : |product| < 10 ^ 21) :
    ∃ sign : String, ∃ whole digit : ℕ, (sign = "" ∨ sign = "-") ∧ digit < 10 ∧
      boxLabel box = "Accident " ++ (sign ++ toString whole ++ "." ++ toString digit) ++ "%" := by
  refine ⟨if product < 0 then "-" else "", ⌊|product| * 10 + 1 / 2⌋₊ / 10,
    ⌊|product| * 10 + 1 / 2⌋₊ % 10, ?_, Nat.mod_lt _ (by norm_num), ?_⟩
  · split_ifs
    · exact Or.inr rfl
    · exact Or.inl rfl
  · unfold boxLabel
    rw [hp, toFixed_one product hlt]

/-- C7 (counterexample): on a canvas without a 2D context the box of the scenario
is not drawn at 3.1; a visible box of confidence `1e19` gets the label
`"Accident 1e+21%"` and a visible box without confidence the label
`"Accident NaN%"`, neither with a digit after a decimal point. -/
theorem label_out_of_range :
    issued (freshCanvas false)
        (drawBoxes fontWidth
          ⟨[⟨10, 10, 50, 50, some 0.87, JSVal.num 3.0⟩], scenarioVideo 3.1, freshCanvas false⟩
          3.1).canvas = [] ∧
    DrawCall.fillText "Accident 1e+21%" 15 10 ∈
      issued (freshCanvas true)
        (drawBoxes fontWidth
          ⟨[⟨10, 10, 50, 50, some (10 ^ 19), JSVal.num 3.0⟩], scenarioVideo 3.1, freshCanvas true⟩
          3.1).canvas ∧
    DrawCall.fillText "Accident NaN%" 15 10 ∈
      issued (freshCanvas true)
        (drawBoxes fontWidth
          ⟨[⟨10, 10, 50, 50, none, JSVal.num 3.0⟩], scenarioVideo 3.1, freshCanvas true⟩
          3.1).canvas := by
  have hv : ∀ c : Option ℚ, visibleBoxes [(⟨10, 10, 50, 50, c, JSVal.num 3.0⟩ : Box)] 3.1 =
      [⟨10, 10, 50, 50, c, JSVal.num 3.0⟩] := by
    intro c
    simp only [visibleBoxes, List.filter_cons, List.filter_nil,
      (isVisible_scenario 10 10 50 50 c).1, if_true]
  refine ⟨?_, ?_, ?_⟩
  · exact issued_drawBoxes fontWidth ⟨_, scenarioVideo 3.1, freshCanvas false⟩ 3.1
  · have h := issued_drawBoxes fontWidth
      ⟨[⟨10, 10, 50, 50, some (10 ^ 19), JSVal.num 3.0⟩], scenarioVideo 3.1, freshCanvas true⟩ 3.1
    rw [h]
    simp only [hv, freshCanvas, if_true, boxesCalls, boxCalls, boxLabel_out_of_range.1]
    norm_num
  · have h := issued_drawBoxes fontWidth
      ⟨[⟨10, 10, 50, 50, none, JSVal.num 3.0⟩], scenarioVideo 3.1, freshCanvas true⟩ 3.1
    rw [h]
    simp only [hv, freshCanvas, if_true, boxesCalls, boxCalls, boxLabel_out_of_range.2]
    norm_num

/-- C7 (amended): every label text a repaint draws is `"Accident "`, then the
binary64 product `confidence * 100` written by `toFixed(1)`, then `"%"`, for a
visible box; when that product is finite and below `10^21` in magnitude, as it
is for every confidence between -1 and 1, it is written with exactly one digit
after the point.  On a canvas with a 2D context and the one box
`x1:10, y1:10, x2:50, y2:50, confidence:0.87, timestamp:3.0`, a repaint at 3.1
strokes the box and draws the label `"Accident 87.0%"`, and a repaint at 4.0
only clears the surface; without a 2D context nothing is drawn. -/
theorem label_text (measureText : String → String → ℚ) (env : Env) (currentTime : ℚ) :
    (∀ text x y, DrawCall.fillText text x y ∈
        issued env.canvas (drawBoxes measureText env currentTime).canvas →
      ∃ box ∈ visibleBoxes env.detections currentTime,
        text = "Accident " ++
          toFixed ((confidenceNumber box.confidence).mul (toDouble 100)) 1 ++ "%") ∧
    (∀ (box : Box) (product : ℚ),
      (confidenceNumber box.confidence).mul (toDouble 100) = JSNum.finite product →
      |product| < 10 ^ 21 →
      ∃ sign : String, ∃ whole digit : ℕ, (sign = "" ∨ sign = "-") ∧ digit < 10 ∧
        boxLabel box =
          "Accident " ++ (sign ++ toString whole ++ "." ++ toString digit) ++ "%") ∧
    (∀ (box : Box) (c : ℚ), box.confidence = some c → |c| ≤ 1 →
      ∃ sign : String, ∃ whole digit : ℕ, (sign = "" ∨ sign = "-") ∧ digit < 10 ∧
        boxLabel box =
          "Accident " ++ (sign ++ toString whole ++ "." ++ toString digit) ++ "%") ∧
    (env.canvas.context = true →
      env.detections = [⟨10, 10, 50, 50, some 0.87, JSVal.num 3.0⟩] →
      issued env.canvas (drawBoxes measureText env 3.1).canvas =
          [DrawCall.clearRect 0 0 env.canvas.width env.canvas.height,
            DrawCall.strokeRect 10 10 40 40,
            DrawCall.fillRect 10 0 (measureText env.canvas.state.font "Accident 87.0%" + 10) 18,
            DrawCall.fillText "Accident 87.0%" 15 10] ∧
        issued env.canvas (drawBoxes measureText env 4.0).canvas =
          [DrawCall.clearRect 0 0 env.canvas.width env.canvas.height] ∧
        (drawBoxes measureText env 4.0).canvas.surface = []) ∧
    (env.canvas.context = false →
      issued env.canvas (drawBoxes measureText env currentTime).canvas = []) := by
  refine ⟨?_, boxLabel_shape, ?_, ?_, ?_⟩
  · intro text x y hmem
    rw [issued_drawBoxes] at hmem
    cases hc : env.canvas.context
    · simp [hc] at hmem
    · simp only [hc, if_true, List.mem_cons] at hmem
      rcases hmem with hmem | hmem
      · cases hmem
      · obtain ⟨b, hb, f, hf⟩ := mem_boxesCalls _ _ _ _ hmem
        refine ⟨b, hb, ?_⟩
        simp only [boxCalls, List.mem_cons, List.mem_singleton, DrawCall.fillText.injEq] at hf
        rcases hf with hf | hf | hf
        · cases hf
        · cases hf
        · rcases hf with hf | hf
          · exact hf.1
          · simp at hf
  · intro box c hbc hc
    obtain ⟨product, hp, hlt⟩ := confidence_product_small c hc
    exact boxLabel_shape box product (by rw [hbc]; exact hp) hlt
  · intro hc hd
    have hlabel : boxLabel ⟨10, 10, 50, 50, some 0.87, JSVal.num 3.0⟩ = "Accident 87.0%" :=
      boxLabel_scenarioBox
    have hs := isVisible_scenario 10 10 50 50 (some 0.87)
    have hv1 : visibleBoxes env.detections 3.1 =
        [⟨10, 10, 50, 50, some 0.87, JSVal.num 3.0⟩] := by
      rw [hd]
      simp only [visibleBoxes, List.filter_cons, List.filter_nil, hs.1, if_true]
    have hv2 : visibleBoxes env.detections 4.0 = [] := by
      rw [hd]
      simp only [visibleBoxes, List.filter_cons, List.filter_nil, hs.2]
      simp
    refine ⟨?_, ?_, ?_⟩
    · rw [issued_drawBoxes, hv1]
      simp only [hc, if_true, boxesCalls, boxCalls, hlabel, List.append_nil]
      norm_num
    · rw [issued_drawBoxes, hv2]
      simp [hc, boxesCalls]
    · unfold drawBoxes
      simp only [hc, Bool.not_true, Bool.false_eq_true, if_false, hv2, List.foldl_nil]
      simp [Canvas.clearRect]
  · intro hc
    rw [issued_drawBoxes]
    simp [hc]

/-- Witness of C7: the scenario on a canvas as created. -/
theorem label_text_witness :
    issued (freshCanvas true)
        (drawBoxes fontWidth ⟨[scenarioBox], scenarioVideo 3.1, freshCanvas true⟩ 3.1).canvas =
      [DrawCall.clearRect 0 0 300 150, DrawCall.strokeRect 10 10 40 40,
        DrawCall.fillRect 10 0 (fontWidth "10px sans-serif" "Accident 87.0%" + 10) 18,
        DrawCall.fillText "Accident 87.0%" 15 10] := by
  have h := ((label_text fontWidth ⟨[scenarioBox], scenarioVideo 3.1, freshCanvas true⟩ 0).2.2.2.1
    rfl rfl).1
  simpa [freshCanvas] using h

/-! ## The surface after a repaint -/

/-- The forEach body adds the three primitives of its box to the bitmap. -/
theorem drawBox_surface (mt : String → String → ℚ) (cv : Canvas) (b : Box) :
    (drawBox mt cv b).surface = cv.surface ++ boxPainted mt cv.state.font b := by
  simp [drawBox, Canvas.paint, boxPainted, textHeight, DrawCall.rendering]

/-- Drawing a list of boxes adds the primitives of each box in order. -/
theorem foldl_drawBox_surface (mt : String → String → ℚ) (bs : List Box) (cv : Canvas) :
    (bs.foldl (drawBox mt) cv).surface = cv.surface ++ boxesPainted mt cv.state.font bs := by
  induction bs generalizing cv with
  | nil => simp [boxesPainted]
  | cons b bs ih =>
    rw [List.foldl_cons, ih, drawBox_surface, drawBox_font, boxesPainted, List.append_assoc]

/-- With a context, the surface after a repaint holds the primitives of the
visible boxes and nothing else: it is determined by the detections, the time
and the font selected on entry. -/
theorem drawBoxes_surface (mt : String → String → ℚ) (env : Env) (t : ℚ)
    (hc : env.canvas.context = true) :
    (drawBoxes mt env t).canvas.surface =
      boxesPainted mt env.canvas.state.font (visibleBoxes env.detections t) := by
  unfold drawBoxes
  simp only [hc, Bool.not_true, Bool.false_eq_true, if_false]
  rw [foldl_drawBox_surface]
  simp [Canvas.clearRect]

/-! ## Repainting twice -/

/-- The surface after a repaint of the scenario at 3.1, and the font it leaves
selected: the width of the chip is measured in the font found on entry. -/
theorem drawBoxes_scenario_surface (env : Env) (hc : env.canvas.context = true)
    (hd : env.detections = [scenarioBox]) :
    (drawBoxes fontWidth env 3.1).canvas.surface.map Painted.call =
        [DrawCall.strokeRect 10 10 40 40,
          DrawCall.fillRect 10 0 (fontWidth env.canvas.state.font "Accident 87.0%" + 10) 18,
          DrawCall.fillText "Accident 87.0%" 15 10] ∧
      (drawBoxes fontWidth env 3.1).canvas.state.font = "10px system-ui" := by
  have hv : visibleBoxes env.detections 3.1 = [scenarioBox] := by
    rw [hd]
    exact visibleBoxes_scenario
  unfold drawBoxes
  simp only [hc, Bool.not_true, Bool.false_eq_true, if_false, hv, List.foldl_cons, List.foldl_nil]
  refine ⟨?_, rfl⟩
  simp only [drawBox, boxLabel_scenarioBox]
  simp [Canvas.paint, Canvas.clearRect, textHeight, scenarioBox]
  norm_num

/-- C8 (the code at the failing input): the scenario box on a canvas as created,
with a font metric of 5 units a character in `10px sans-serif` and 6 in
`10px system-ui`.  The repaint of `resizeCanvas` at 3.1 draws a chip of width 80;
the `timeupdate` repaint that follows at the same time draws it with width 94,
because `measureText` (line 46) runs before `ctx.font` is assigned (line 53): the
surface after the two repaints is not the surface after one. -/
theorem repaint_twice_differs :
    ((resizeCanvas fontWidth
        ⟨[scenarioBox], scenarioVideo 3.1, freshCanvas true⟩).canvas.surface.map Painted.call =
      [DrawCall.strokeRect 10 10 40 40, DrawCall.fillRect 10 0 80 18,
        DrawCall.fillText "Accident 87.0%" 15 10]) ∧
    ((handleTimeUpdate fontWidth
        (resizeCanvas fontWidth
          ⟨[scenarioBox], scenarioVideo 3.1, freshCanvas true⟩)).canvas.surface.map Painted.call =
      [DrawCall.strokeRect 10 10 40 40, DrawCall.fillRect 10 0 94 18,
        DrawCall.fillText "Accident 87.0%" 15 10]) ∧
    (handleTimeUpdate fontWidth
        (resizeCanvas fontWidth ⟨[scenarioBox], scenarioVideo 3.1, freshCanvas true⟩)).canvas.surface ≠
      (resizeCanvas fontWidth ⟨[scenarioBox], scenarioVideo 3.1, freshCanvas true⟩).canvas.surface := by
  have hlen : ("Accident 87.0%" : String).length = 14 := by decide
  have hne : ("10px sans-serif" : String) ≠ "10px system-ui" := by decide
  have ht : orNum (3.1 : ℚ) 0 = 3.1 := by
    unfold orNum
    norm_num
  have hr : resizeCanvas fontWidth ⟨[scenarioBox], scenarioVideo 3.1, freshCanvas true⟩ =
      drawBoxes fontWidth (resizedEnv ⟨[scenarioBox], scenarioVideo 3.1, freshCanvas true⟩) 3.1 := by
    rw [resizeCanvas_eq]
    exact congrArg _ ht
  have k1 := drawBoxes_scenario_surface
    (resizedEnv ⟨[scenarioBox], scenarioVideo 3.1, freshCanvas true⟩) rfl rfl
  rw [← hr] at k1
  have hfont0 : (resizedEnv ⟨[scenarioBox], scenarioVideo 3.1, freshCanvas true⟩).canvas.state.font =
      "10px sans-serif" := rfl
  have hd : (resizeCanvas fontWidth ⟨[scenarioBox], scenarioVideo 3.1, freshCanvas true⟩).detections =
      [scenarioBox] := by
    rw [hr]
    exact (drawBoxes_frame _ _ _).1
  have hvid : (resizeCanvas fontWidth ⟨[scenarioBox], scenarioVideo 3.1, freshCanvas true⟩).video =
      scenarioVideo 3.1 := by
    rw [hr]
    exact (drawBoxes_frame _ _ _).2
  have hc : (resizeCanvas fontWidth
      ⟨[scenarioBox], scenarioVideo 3.1, freshCanvas true⟩).canvas.context = true := by
    rw [hr]
    exact (drawBoxes_dims _ _ _).2.2
  have k2 := drawBoxes_scenario_surface
    (resizeCanvas fontWidth ⟨[scenarioBox], scenarioVideo 3.1, freshCanvas true⟩) hc hd
  have hh : handleTimeUpdate fontWidth
      (resizeCanvas fontWidth ⟨[scenarioBox], scenarioVideo 3.1, freshCanvas true⟩) =
      drawBoxes fontWidth
        (resizeCanvas fontWidth ⟨[scenarioBox], scenarioVideo 3.1, freshCanvas true⟩) 3.1 := by
    unfold handleTimeUpdate
    rw [hvid]
    exact congrArg _ ht
  rw [← hh, k1.2] at k2
  have h1 := k1.1
  have h2 := k2.1
  have w1 : fontWidth "10px sans-serif" "Accident 87.0%" + 10 = 80 := by
    simp only [fontWidth, hlen, hne, if_false]
    norm_num
  have w2 : fontWidth "10px system-ui" "Accident 87.0%" + 10 = 94 := by
    simp only [fontWidth, hlen, if_true]
    norm_num
  rw [hfont0, w1] at h1
  rw [w2] at h2
  refine ⟨h1, h2, ?_⟩
  intro heq
  have := congrArg (List.map Painted.call) heq
  rw [h1, h2] at this
  norm_num at this

/-! ## The listeners of the effect -/

/-- An upper bound of a list of numbers bounds each of them. -/
theorem le_foldr_max (ns : List ℕ) (n : ℕ) (h : n ∈ ns) : n ≤ ns.foldr max 0 := by
  induction ns with
  | nil => simp at h
  | cons m ns ih =>
    rcases List.mem_cons.mp h with h | h
    · subst h
      exact le_max_left _ _
    · exact le_trans (ih h) (le_max_right _ _)

/-- No registered listener has the identity of the closures of a new run. -/
theorem freshRun_fresh (dom : Dom) (l : Listener)
    (h : l ∈ dom.windowListeners ++ dom.videoListeners) : l.callback.run ≠ freshRun dom := by
  have hle : l.callback.run ≤
      ((dom.windowListeners ++ dom.videoListeners).map
        fun (l : Listener) => l.callback.run).foldr max 0 :=
    le_foldr_max _ _ (List.mem_map.mpr ⟨l, h, rfl⟩)
  unfold freshRun
  omega

/-- Registering a listener that is not registered appends it. -/
theorem addEventListener_of_not_mem (ls : List Listener) (type : String) (callback : Handler)
    (h : (⟨type, callback⟩ : Listener) ∉ ls) :
    addEventListener ls type callback = ls ++ [⟨type, callback⟩] := by
  simp [addEventListener, h]

/-- Removing the listener registered last, when it was not registered before. -/
theorem removeEventListener_append (ls rest : List Listener) (type : String) (callback : Handler)
    (h : (⟨type, callback⟩ : Listener) ∉ ls) :
    removeEventListener (ls ++ ⟨type, callback⟩ :: rest) type callback = ls ++ rest := by
  unfold removeEventListener
  rw [List.erase_append_right _ h, List.erase_cons_head]

/-- C9: when the video or the canvas is missing the effect changes nothing and
returns no cleanup; otherwise it registers exactly three listeners, `resize` on
the window and `loadedmetadata` and `timeupdate` on the video, whose callbacks
are the closures of this run (registered by no earlier listener), and the
cleanup it returns removes those three with the same callbacks, leaving the
listeners of the window and of the video exactly as before the effect. -/
theorem effect_cleanup_restores_listeners (measureText : String → String → ℚ)
    (detections : List Box) (dom : Dom) :
    (dom.video = none ∨ dom.canvas = none →
      (effect measureText detections dom).1 = dom ∧
        (effect measureText detections dom).2.isNone = true) ∧
    (∀ video canvas, dom.video = some video → dom.canvas = some canvas →
      ∃ run : ℕ, ∃ undo : Dom → Dom,
        (∀ l ∈ dom.windowListeners ++ dom.videoListeners, l.callback.run ≠ run) ∧
        (effect measureText detections dom).2 = some undo ∧
        undo = cleanup run ∧
        (effect measureText detections dom).1.windowListeners =
          dom.windowListeners ++ [⟨"resize", ⟨run, HandlerFn.resizeCanvas⟩⟩] ∧
        (effect measureText detections dom).1.videoListeners =
          dom.videoListeners ++
            [⟨"loadedmetadata", ⟨run, HandlerFn.resizeCanvas⟩⟩,
              ⟨"timeupdate", ⟨run, HandlerFn.handleTimeUpdate⟩⟩] ∧
        (undo (effect measureText detections dom).1).windowListeners = dom.windowListeners ∧
        (undo (effect measureText detections dom).1).videoListeners = dom.videoListeners) := by
  refine ⟨?_, ?_⟩
  · intro h
    unfold effect
    rcases h with h | h
    · rw [h]
      exact ⟨rfl, rfl⟩
    · rw [h]
      cases dom.video <;> exact ⟨rfl, rfl⟩
  · intro video canvas hv hc
    have hfresh := freshRun_fresh dom
    have hvl : dom.videoListeners = video.listeners := by simp [Dom.videoListeners, hv]
    have henv : (resizeCanvas measureText ⟨detections, video, canvas⟩).video = video := by
      rw [resizeCanvas_eq]
      exact (drawBoxes_frame _ _ _).2
    have hw : (⟨"resize", ⟨freshRun dom, HandlerFn.resizeCanvas⟩⟩ : Listener) ∉
        dom.windowListeners := fun hm =>
      hfresh _ (List.mem_append_left _ hm) rfl
    have hl : (⟨"loadedmetadata", ⟨freshRun dom, HandlerFn.resizeCanvas⟩⟩ : Listener) ∉
        video.listeners := fun hm =>
      hfresh _ (List.mem_append_right _ (hvl ▸ hm)) rfl
    have ht : (⟨"timeupdate", ⟨freshRun dom, HandlerFn.handleTimeUpdate⟩⟩ : Listener) ∉
        video.listeners := fun hm =>
      hfresh _ (List.mem_append_right _ (hvl ▸ hm)) rfl
    have ht2 : (⟨"timeupdate", ⟨freshRun dom, HandlerFn.handleTimeUpdate⟩⟩ : Listener) ∉
        video.listeners ++ [⟨"loadedmetadata", ⟨freshRun dom, HandlerFn.resizeCanvas⟩⟩] := by
      simp [ht]
    have he1 : (effect measureText detections dom).1.windowListeners =
        dom.windowListeners ++ [⟨"resize", ⟨freshRun dom, HandlerFn.resizeCanvas⟩⟩] := by
      simp [effect, hv, hc, addEventListener_of_not_mem _ _ _ hw]
    have he2 : (effect measureText detections dom).1.videoListeners =
        video.listeners ++
          [⟨"loadedmetadata", ⟨freshRun dom, HandlerFn.resizeCanvas⟩⟩,
            ⟨"timeupdate", ⟨freshRun dom, HandlerFn.handleTimeUpdate⟩⟩] := by
      simp [effect, hv, hc, Dom.videoListeners, henv, addEventListener_of_not_mem _ _ _ hl,
        addEventListener_of_not_mem _ _ _ ht2]
    have hc1 : ∀ d : Dom, (cleanup (freshRun dom) d).windowListeners =
        removeEventListener d.windowListeners "resize" ⟨freshRun dom, HandlerFn.resizeCanvas⟩ :=
      fun d => rfl
    have hc2 : ∀ d : Dom, (cleanup (freshRun dom) d).videoListeners =
        removeEventListener
          (removeEventListener d.videoListeners "loadedmetadata"
            ⟨freshRun dom, HandlerFn.resizeCanvas⟩)
          "timeupdate" ⟨freshRun dom, HandlerFn.handleTimeUpdate⟩ := by
      intro d
      unfold cleanup Dom.videoListeners
      cases d.video <;> simp [removeEventListener]
    refine ⟨freshRun dom, cleanup (freshRun dom), hfresh, ?_, rfl, he1, hvl ▸ he2, ?_, ?_⟩
    · simp [effect, hv, hc]
    · rw [hc1, he1, removeEventListener_append _ _ _ _ hw, List.append_nil]
    · rw [hc2, he2, removeEventListener_append _ _ _ _ hl, hvl]
      exact removeEventListener_append _ [] _ _ ht |>.trans (List.append_nil _)

/-- Witness of C9: a page with a video, a canvas and a listener of another
component on the window. -/
theorem effect_cleanup_restores_listeners_witness :
    ∃ undo : Dom → Dom,
      (effect fontWidth [scenarioBox]
        ⟨some (scenarioVideo 0), some (freshCanvas true),
          [⟨"resize", ⟨7, HandlerFn.resizeCanvas⟩⟩]⟩).2 = some undo ∧
      (undo (effect fontWidth [scenarioBox]
        ⟨some (scenarioVideo 0), some (freshCanvas true),
          [⟨"resize", ⟨7, HandlerFn.resizeCanvas⟩⟩]⟩).1).windowListeners =
        [⟨"resize", ⟨7, HandlerFn.resizeCanvas⟩⟩] := by
  obtain ⟨_, undo, _, h1, _, _, _, h2, _⟩ :=
    (effect_cleanup_restores_listeners fontWidth [scenarioBox]
      ⟨some (scenarioVideo 0), some (freshCanvas true),
        [⟨"resize", ⟨7, HandlerFn.resizeCanvas⟩⟩]⟩).2 (scenarioVideo 0) (freshCanvas true) rfl rfl
  exact ⟨undo, h1, h2⟩

/-! ## Resizing and the visible set -/

/-- The calls the repaint of `handleTimeUpdate` issues. -/
theorem issued_handleTimeUpdate (mt : String → String → ℚ) (env : Env) :
    issued env.canvas (handleTimeUpdate mt env).canvas =
      if env.canvas.context then
        DrawCall.clearRect 0 0 env.canvas.width env.canvas.height ::
          boxesCalls mt env.canvas.state.font
            (visibleBoxes env.detections (orNum env.video.currentTime 0))
      else [] :=
  issued_drawBoxes mt env _

/-- C10: for one detections list and one `currentTime`, whatever the dimensions of
the video and of the canvas, the boxes drawn by the repaint of `resizeCanvas` are
the same; they are the boxes drawn by the `timeupdate` repaint, namely the
visible boxes at that time; and the calls of two resize repaints agree after the
leading clear, whose rectangle is the new size of the canvas. -/
theorem resize_keeps_visible_set (measureText : String → String → ℚ) (detections : List Box)
    (currentTime : ℚ) (context : Bool) (video1 video2 : Video) (canvas1 canvas2 : Canvas) :
    let env1 : Env :=
      ⟨detections, { video1 with currentTime := currentTime }, { canvas1 with context := context }⟩
    let env2 : Env :=
      ⟨detections, { video2 with currentTime := currentTime }, { canvas2 with context := context }⟩
    strokedRects (issued env1.canvas (resizeCanvas measureText env1).canvas) =
        strokedRects (issued env2.canvas (resizeCanvas measureText env2).canvas) ∧
      strokedRects (issued env1.canvas (resizeCanvas measureText env1).canvas) =
        strokedRects (issued env1.canvas (handleTimeUpdate measureText env1).canvas) ∧
      strokedRects (issued env1.canvas (resizeCanvas measureText env1).canvas) =
        (if context then (visibleBoxes detections (orNum currentTime 0)).map boxRect else []) ∧
      (issued env1.canvas (resizeCanvas measureText env1).canvas).tail =
        (issued env2.canvas (resizeCanvas measureText env2).canvas).tail := by
  intro env1 env2
  have h1 : strokedRects (issued env1.canvas (resizeCanvas measureText env1).canvas) =
      (if context then (visibleBoxes detections (orNum currentTime 0)).map boxRect else []) := by
    rw [issued_resizeCanvas]
    cases context <;> simp [env1, strokedRects, strokedRects_boxesCalls]
  have h2 : strokedRects (issued env2.canvas (resizeCanvas measureText env2).canvas) =
      (if context then (visibleBoxes detections (orNum currentTime 0)).map boxRect else []) := by
    rw [issued_resizeCanvas]
    cases context <;> simp [env2, strokedRects, strokedRects_boxesCalls]
  have h3 : strokedRects (issued env1.canvas (handleTimeUpdate measureText env1).canvas) =
      (if context then (visibleBoxes detections (orNum currentTime 0)).map boxRect else []) := by
    rw [issued_handleTimeUpdate]
    cases context <;> simp [env1, strokedRects, strokedRects_boxesCalls]
  refine ⟨h1.trans h2.symm, h1.trans h3.symm, h1, ?_⟩
  rw [issued_resizeCanvas, issued_resizeCanvas]
  cases context <;> simp [env1, env2]

/-! ## What the page shows after an upload -/

/-- The flag `accident` after `handleUploadComplete` is `Boolean(result?.accident)`. -/
theorem handleUploadComplete_accident (createObjectURL : File → String) (file : Option File)
    (result : Option Result) (home : Home) :
    (handleUploadComplete createObjectURL file result home).accident = resultAccident result := by
  unfold handleUploadComplete resultAccident
  cases file <;> rfl

/-- The detections after `handleUploadComplete` are the boxes of the result. -/
theorem handleUploadComplete_detections (createObjectURL : File → String) (file : Option File)
    (result : Option Result) (home : Home) :
    (handleUploadComplete createObjectURL file result home).detections =
      orListOpt (result.bind Result.boxes) [] := by
  unfold handleUploadComplete
  cases file <;> rfl

/-- C11: whatever result `handleUploadComplete` receives, the status panel shows
Accident `"YES"` and Status `"Not Safe"` and every report that can be downloaded
has `accident = true` (one can be downloaded exactly when the result has boxes),
while the header is `"Accident Detected"` or `"Monitoring"` and the alert is
visible or hidden according to `Boolean(result?.accident)`; for the failure
result the header is `"Monitoring"` and the alert is hidden. -/
theorem display_after_upload (createObjectURL : File → String) (file : Option File)
    (result : Option Result) (home : Home) :
    accidentText = "YES" ∧ statusText = "Not Safe" ∧
    (∀ s : Home, (buildReport s).accident = true) ∧
    (∀ r : Report,
      downloadReport (handleUploadComplete createObjectURL file result home) = some r →
        r.accident = true) ∧
    ((downloadReport (handleUploadComplete createObjectURL file result home)).isSome = true ↔
      orListOpt (result.bind Result.boxes) [] ≠ []) ∧
    headerText (handleUploadComplete createObjectURL file result home) =
      (if resultAccident result then "Accident Detected" else "Monitoring") ∧
    alertVisible (handleUploadComplete createObjectURL file result home) = resultAccident result ∧
    (resultAccident (some failureResult) = false ∧
      headerText (handleUploadComplete createObjectURL file (some failureResult) home) =
        "Monitoring" ∧
      alertVisible (handleUploadComplete createObjectURL file (some failureResult) home) = false) := by
  have hacc := handleUploadComplete_accident createObjectURL file
  have hdet := handleUploadComplete_detections createObjectURL file result home
  refine ⟨rfl, rfl, fun _ => rfl, ?_, ?_, ?_, ?_, rfl, ?_, ?_⟩
  · intro r hr
    unfold downloadReport at hr
    split_ifs at hr
    cases hr
    rfl
  · unfold downloadReport
    rw [hdet]
    cases h : orListOpt (result.bind Result.boxes) [] <;> simp
  · unfold headerText
    rw [hacc]
  · unfold alertVisible alertModalVisible
    rw [hacc]
  · unfold headerText
    rw [hacc]
    rfl
  · unfold alertVisible alertModalVisible
    rw [hacc]
    rfl

/-- Witness of C11: a reply with `accident: false` and one box. -/
theorem display_after_upload_witness :
    ∃ r : Report,
      downloadReport
          (handleUploadComplete (fun (f : File) => "blob:" ++ f.name) none
            (some { accident := JSVal.bool false, boxes := some [scenarioBox] })
            ⟨none, [], false, 0, true, none, "", [], "", 0, []⟩) = some r ∧
        r.accident = true := by
  refine ⟨_, rfl, ?_⟩
  exact (display_after_upload (fun (f : File) => "blob:" ++ f.name) none
    (some { accident := JSVal.bool false, boxes := some [scenarioBox] })
    ⟨none, [], false, 0, true, none, "", [], "", 0, []⟩).2.2.2.1 _ rfl

/-! ## The callbacks of an upload -/

/-- With a file selected, `handleUpload` calls `onUploadStart`, makes one request
and then calls `onUploadComplete` with the file and the result it passes on. -/
theorem handleUpload_with_file {σ : Type} (props : Props σ) (outcome : Outcome)
    (card : UploadCard) (parent : σ) (file : File) (hfile : card.file = some file) :
    (handleUpload props outcome card parent).parent =
        callUploadComplete props file (passedResult outcome) (callUploadStart props parent) ∧
      (handleUpload props outcome card parent).requests = [props.backendUrl ++ "/upload-video"] := by
  unfold handleUpload passedResult
  rw [hfile]
  cases tryUpload outcome <;> exact ⟨rfl, rfl⟩

/-- `handleUploadComplete` always ends the loading state. -/
theorem handleUploadComplete_loading (createObjectURL : File → String) (file : Option File)
    (result : Option Result) (home : Home) :
    (handleUploadComplete createObjectURL file result home).loading = false := by
  unfold handleUploadComplete
  cases file <;> rfl

/-- C12: with a file selected, whatever the outcome of the request, callbacks that
return normally are called as `onUploadStart` once and then `onUploadComplete`
once, with one request in between; with the callbacks of `Home`, the flag
`loading` that `handleUploadStart` sets to `true` is `false` at the end. With no
file selected neither callback is called, no request is made and the error
message `"Please choose a video file first."` is set. -/
theorem handleUpload_callbacks (outcome : Outcome) (card : UploadCard) (backendUrl : String)
    (createObjectURL : File → String) (home : Home) (log : List Call) :
    (∀ file, card.file = some file →
      (handleUpload (recordingProps backendUrl) outcome card log).parent =
          log ++ [Call.uploadStart, Call.uploadComplete (some file) (passedResult outcome)] ∧
        (handleUpload (recordingProps backendUrl) outcome card log).requests =
          [backendUrl ++ "/upload-video"] ∧
        (handleUpload (homeProps backendUrl createObjectURL) outcome card home).parent =
          handleUploadComplete createObjectURL (some file) (passedResult outcome)
            (handleUploadStart home) ∧
        (handleUploadStart home).loading = true ∧
        (handleUpload (homeProps backendUrl createObjectURL) outcome card home).parent.loading =
          false) ∧
    (card.file = none →
      (handleUpload (recordingProps backendUrl) outcome card log).parent = log ∧
        (handleUpload (recordingProps backendUrl) outcome card log).requests = [] ∧
        (handleUpload (recordingProps backendUrl) outcome card log).card.error =
          "Please choose a video file first." ∧
        (handleUpload (recordingProps backendUrl) outcome card log).card.error ≠ "" ∧
        (handleUpload (homeProps backendUrl createObjectURL) outcome card home).parent = home) := by
  refine ⟨?_, ?_⟩
  · intro file hfile
    have hrec := handleUpload_with_file (recordingProps backendUrl) outcome card log file hfile
    have hhome := handleUpload_with_file (homeProps backendUrl createObjectURL) outcome card home
      file hfile
    refine ⟨?_, hrec.2, hhome.1, rfl, ?_⟩
    · rw [hrec.1]
      simp [callUploadComplete, callUploadStart, recordingProps]
    · rw [hhome.1]
      exact handleUploadComplete_loading createObjectURL (some file) (passedResult outcome)
        (handleUploadStart home)
  · intro hnone
    unfold handleUpload
    rw [hnone]
    refine ⟨rfl, rfl, rfl, ?_, rfl⟩
    show ("Please choose a video file first." : String) ≠ ""
    decide

/-- Witness of C12: a file is selected and the reply is OK with a body that parses. -/
theorem handleUpload_callbacks_witness :
    (handleUpload (recordingProps "http://localhost:5000")
        (Outcome.okJson (some { accident := JSVal.bool true, boxes := some [scenarioBox] }))
        ⟨some ⟨"crash.mp4", "video/mp4"⟩, ""⟩ []).parent =
      [Call.uploadStart,
        Call.uploadComplete (some ⟨"crash.mp4", "video/mp4"⟩)
          (some { accident := JSVal.bool true, boxes := some [scenarioBox] })] :=
  ((handleUpload_callbacks
    (Outcome.okJson (some { accident := JSVal.bool true, boxes := some [scenarioBox] }))
    ⟨some ⟨"crash.mp4", "video/mp4"⟩, ""⟩ "http://localhost:5000"
    (fun (f : File) => "blob:" ++ f.name) ⟨none, [], false, 0, false, none, "", [], "", 0, []⟩
    []).1 ⟨"crash.mp4", "video/mp4"⟩ rfl).1

end AccidentDetection
